import Mathlib

/-!
Shallow embedding of `src/models/cgnet.py` (the CascadedGaze image-restoration
network) and proofs of the frozen claims about it.

A PyTorch 4-D tensor of shape (B, C, H, W) is modelled as a `Tensor4`:
the four extents as natural numbers plus a total data function
`ℕ → ℕ → ℕ → ℕ → ℝ`; only indices below the extents are meaningful.
Two tensors are "equal" in the PyTorch sense (`Tensor4.Eqv`) when their
extents agree and their data agree on all in-range indices.
-/

open Finset

/-- A PyTorch tensor of shape (B, C, H, W): extents plus data. -/
structure Tensor4 where
  B : ℕ
  C : ℕ
  H : ℕ
  W : ℕ
  data : ℕ → ℕ → ℕ → ℕ → ℝ

namespace Tensor4

/-- PyTorch tensor equality: same shape and same entries at every valid index. -/
def Eqv (x y : Tensor4) : Prop :=
  x.B = y.B ∧ x.C = y.C ∧ x.H = y.H ∧ x.W = y.W ∧
    ∀ b < x.B, ∀ c < x.C, ∀ h < x.H, ∀ w < x.W, x.data b c h w = y.data b c h w

/-- Broadcast extent of one axis: a size-1 axis stretches to the other
operand's size (PyTorch broadcasting; callers only use it on size-equal or
size-1 axes). -/
def bdim (n m : ℕ) : ℕ := if n = 1 then m else n

/-- Broadcast index into an axis of extent `n`: a size-1 axis is always read
at index 0. -/
def bidx (n i : ℕ) : ℕ := if n = 1 then 0 else i

/-- Pointwise broadcast addition (`+` on tensors). -/
def bcAdd (x y : Tensor4) : Tensor4 where
  B := bdim x.B y.B
  C := bdim x.C y.C
  H := bdim x.H y.H
  W := bdim x.W y.W
  data b c h w :=
    x.data (bidx x.B b) (bidx x.C c) (bidx x.H h) (bidx x.W w) +
      y.data (bidx y.B b) (bidx y.C c) (bidx y.H h) (bidx y.W w)

/-- Pointwise broadcast subtraction (`-` on tensors). -/
def bcSub (x y : Tensor4) : Tensor4 where
  B := bdim x.B y.B
  C := bdim x.C y.C
  H := bdim x.H y.H
  W := bdim x.W y.W
  data b c h w :=
    x.data (bidx x.B b) (bidx x.C c) (bidx x.H h) (bidx x.W w) -
      y.data (bidx y.B b) (bidx y.C c) (bidx y.H h) (bidx y.W w)

/-- Pointwise broadcast multiplication (`*` on tensors). -/
def bcMul (x y : Tensor4) : Tensor4 where
  B := bdim x.B y.B
  C := bdim x.C y.C
  H := bdim x.H y.H
  W := bdim x.W y.W
  data b c h w :=
    x.data (bidx x.B b) (bidx x.C c) (bidx x.H h) (bidx x.W w) *
      y.data (bidx y.B b) (bidx y.C c) (bidx y.H h) (bidx y.W w)

/-- Pointwise broadcast division (`/` on tensors). -/
noncomputable def bcDiv (x y : Tensor4) : Tensor4 where
  B := bdim x.B y.B
  C := bdim x.C y.C
  H := bdim x.H y.H
  W := bdim x.W y.W
  data b c h w :=
    x.data (bidx x.B b) (bidx x.C c) (bidx x.H h) (bidx x.W w) /
      y.data (bidx y.B b) (bidx y.C c) (bidx y.H h) (bidx y.W w)

/-- Apply a scalar function entrywise (shape unchanged). -/
def map (f : ℝ → ℝ) (x : Tensor4) : Tensor4 where
  B := x.B
  C := x.C
  H := x.H
  W := x.W
  data b c h w := f (x.data b c h w)

end Tensor4

/-- `torch.nn.functional.pad(x, (pl, pr, pt, pb))` in the default
constant-zero mode: the last axis (W) is padded by `pl`/`pr`, the second-to-last
(H) by `pt`/`pb`, and every added entry holds the constant 0. -/
def fpad (x : Tensor4) (pl pr pt pb : ℕ) : Tensor4 where
  B := x.B
  C := x.C
  H := x.H + pt + pb
  W := x.W + pl + pr
  data b c h w :=
    if pt ≤ h ∧ h < pt + x.H ∧ pl ≤ w ∧ w < pl + x.W then
      x.data b c (h - pt) (w - pl)
    else 0

/-- `CascadedGaze.check_image_size` (cgnet.py lines 348-353): pad height and
width on the bottom/right up to the next multiple of `padder_size`, using
`F.pad(x, (0, mod_pad_w, 0, mod_pad_h))`. -/
def checkImageSize (padderSize : ℕ) (x : Tensor4) : Tensor4 :=
  fpad x 0 ((padderSize - x.W % padderSize) % padderSize)
    0 ((padderSize - x.H % padderSize) % padderSize)

/-- An `nn.Conv2d(Cin, Cout, K, stride, padding, groups, bias)` module:
its configuration together with its (arbitrary) parameter values.
`weight o i ki kj` is the kernel entry for output channel `o`, within-group
input channel `i` and spatial offset `(ki, kj)`; `biasv o` the bias. -/
structure Conv2dLayer where
  Cin : ℕ
  Cout : ℕ
  K : ℕ
  stride : ℕ
  pad : ℕ
  groups : ℕ
  useBias : Bool
  weight : ℕ → ℕ → ℕ → ℕ → ℝ
  biasv : ℕ → ℝ

/-- Square 2-D convolution with implicit zero padding, stride and groups,
exactly PyTorch's `Conv2d.forward`: output extent
`(H + 2 pad - K) / stride + 1`, and entry `(b, o, i, j)` sums
`weight * input` over the group's input channels and the K×K window,
reading 0 outside the input. -/
def Conv2dLayer.fwd (l : Conv2dLayer) (x : Tensor4) : Tensor4 where
  B := x.B
  C := l.Cout
  H := (x.H + 2 * l.pad - l.K) / l.stride + 1
  W := (x.W + 2 * l.pad - l.K) / l.stride + 1
  data b o i j :=
    (∑ ic ∈ range (l.Cin / l.groups), ∑ ki ∈ range l.K, ∑ kj ∈ range l.K,
      l.weight o ic ki kj *
        (if l.pad ≤ i * l.stride + ki ∧ i * l.stride + ki < l.pad + x.H ∧
            l.pad ≤ j * l.stride + kj ∧ j * l.stride + kj < l.pad + x.W then
          x.data b ((o / (l.Cout / l.groups)) * (l.Cin / l.groups) + ic)
            (i * l.stride + ki - l.pad) (j * l.stride + kj - l.pad)
        else 0)) +
      (if l.useBias then l.biasv o else 0)

/-- The tanh approximation of GELU used by `F.gelu(x, approximate="tanh")`:
`0.5 * v * (1 + tanh(sqrt(2/pi) * (v + 0.044715 * v^3)))`. -/
noncomputable def geluTanh (v : ℝ) : ℝ :=
  0.5 * v * (1 + Real.tanh (Real.sqrt (2 / Real.pi) * (v + 0.044715 * v ^ 3)))

/-- `F.gelu(·, approximate="tanh")` applied entrywise to a tensor. -/
noncomputable def geluT (x : Tensor4) : Tensor4 := x.map geluTanh

/-- `torch.chunk(x, 2, dim=1)`, first half: the first `⌈C/2⌉` channels. -/
def chunk2Fst (x : Tensor4) : Tensor4 where
  B := x.B
  C := (x.C + 1) / 2
  H := x.H
  W := x.W
  data := x.data

/-- `torch.chunk(x, 2, dim=1)`, second half: the remaining channels, shifted
down by `⌈C/2⌉`. -/
def chunk2Snd (x : Tensor4) : Tensor4 where
  B := x.B
  C := x.C - (x.C + 1) / 2
  H := x.H
  W := x.W
  data b c h w := x.data b ((x.C + 1) / 2 + c) h w

/-- `SimpleGate.forward` (cgnet.py lines 64-67): split the channel axis in
two with `chunk(2, dim=1)` and multiply the halves elementwise. -/
def SimpleGate.fwd (x : Tensor4) : Tensor4 :=
  Tensor4.bcMul (chunk2Fst x) (chunk2Snd x)

/-- `torch.cat([x, y], dim=1)`: concatenate along the channel axis. -/
def cat2 (x y : Tensor4) : Tensor4 where
  B := x.B
  C := x.C + y.C
  H := x.H
  W := x.W
  data b c h w := if c < x.C then x.data b c h w else y.data b (c - x.C) h w

/-- A 6-D tensor, used only to mirror the reshape/permute steps of
`CustomPixelShuffle.forward`. -/
structure Tensor6 where
  d0 : ℕ
  d1 : ℕ
  d2 : ℕ
  d3 : ℕ
  d4 : ℕ
  d5 : ℕ
  data : ℕ → ℕ → ℕ → ℕ → ℕ → ℕ → ℝ

/-- `x.reshape([b, c // r^2, r, r, h, w])` (cgnet.py line 57): row-major
reshape splits the channel axis into `(c / r², r, r)`, so channel
`q * r² + d1 * r + d2` of `x` lands at index `(q, d1, d2)`. -/
def psReshape6 (r : ℕ) (x : Tensor4) : Tensor6 where
  d0 := x.B
  d1 := x.C / (r ^ 2)
  d2 := r
  d3 := r
  d4 := x.H
  d5 := x.W
  data b q e1 e2 i j := x.data b (q * r ^ 2 + e1 * r + e2) i j

/-- `tmp.permute([0, 1, 4, 2, 5, 3])` (cgnet.py line 58): reorder the axes of
the 6-D tensor from `(b, q, r, r, h, w)` to `(b, q, h, r, w, r)`. -/
def psPermute (t : Tensor6) : Tensor6 where
  d0 := t.d0
  d1 := t.d1
  d2 := t.d4
  d3 := t.d2
  d4 := t.d5
  d5 := t.d3
  data b q i e1 j e2 := t.data b q e1 e2 i j

/-- `tmp.reshape([b, c // r^2, h * r, w * r])` (cgnet.py line 59): row-major
reshape merges the adjacent axis pairs `(h, r)` and `(w, r)`, so index
`(i * r + e1, j * r + e2)` reads `(i, e1, j, e2)`. -/
def psReshape4 (r : ℕ) (t : Tensor6) : Tensor4 where
  B := t.d0
  C := t.d1
  H := t.d2 * r
  W := t.d4 * r
  data b q u v := t.data b q (u / r) (u % r) (v / r) (v % r)

/-- `CustomPixelShuffle.forward` (cgnet.py lines 54-61): reshape, permute,
reshape. -/
def CustomPixelShuffle.fwd (r : ℕ) (x : Tensor4) : Tensor4 :=
  psReshape4 r (psPermute (psReshape6 r x))

/-- The standard pixel-shuffle rearrangement for upscale factor 2, written
from the claim: output shape `(b, c/4, 2h, 2w)` and
`out[b, q, 2i+di, 2j+dj] = in[b, 4q + 2di + dj, i, j]`. -/
def pixelShuffleSpec2 (x : Tensor4) : Tensor4 where
  B := x.B
  C := x.C / 4
  H := 2 * x.H
  W := 2 * x.W
  data b q u v := x.data b (4 * q + 2 * (u % 2) + v % 2) (u / 2) (v / 2)

/-- A `depthwise_separable_conv` module (cgnet.py lines 70-80): a depthwise
convolution followed by a 1×1 pointwise convolution. -/
structure DSConvLayer where
  depthwise : Conv2dLayer
  pointwise : Conv2dLayer

/-- `depthwise_separable_conv.forward`: depthwise then pointwise. -/
def DSConvLayer.fwd (l : DSConvLayer) (x : Tensor4) : Tensor4 :=
  l.pointwise.fwd (l.depthwise.fwd x)

/-- Raw parameter values for one conv module. -/
structure ConvRaw where
  w : ℕ → ℕ → ℕ → ℕ → ℝ
  b : ℕ → ℝ

/-- `depthwise_separable_conv.__init__(nin, nout, kernel_size, padding,
stide, bias)`: pointwise is `Conv2d(nin, nout, 1, bias=bias)`, depthwise is
`Conv2d(nin, nin, kernel_size, stride=stide, padding=padding, groups=nin,
bias=bias)`. -/
def mkDSConv (nin nout ksize padding stide : ℕ) (useBias : Bool)
    (pw dw : ConvRaw) : DSConvLayer where
  depthwise := ⟨nin, nin, ksize, stide, padding, nin, useBias, dw.w, dw.b⟩
  pointwise := ⟨nin, nout, 1, 1, 0, 1, useBias, pw.w, pw.b⟩

/-- `GlobalContextExtractor.__init__` (cgnet.py lines 93-100): one
depthwise-separable conv per `(kernel_size, stride)` pair, each mapping `c`
channels to `c` channels with the given padding and bias. -/
def mkGCE (c : ℕ) (kernelStrides : List (ℕ × ℕ)) (padding : ℕ)
    (useBias : Bool) (θ : ℕ → ConvRaw × ConvRaw) : List DSConvLayer :=
  (List.range kernelStrides.length).map fun i =>
    mkDSConv c c (kernelStrides.getD i (0, 0)).1 padding
      (kernelStrides.getD i (0, 0)).2 useBias (θ i).1 (θ i).2

/-- `GlobalContextExtractor.forward` (cgnet.py lines 102-107): feed `x`
through the convs sequentially, gelu after each, collecting every
intermediate activation. -/
noncomputable def GCE.fwd : List DSConvLayer → Tensor4 → List Tensor4
  | [], _ => []
  | l :: ls, x => geluT (l.fwd x) :: GCE.fwd ls (geluT (l.fwd x))

/-- `x.mean(1, keepdim=True)`: mean over the channel axis, result has one
channel. -/
noncomputable def mean1 (x : Tensor4) : Tensor4 where
  B := x.B
  C := 1
  H := x.H
  W := x.W
  data b _ h w := (∑ c ∈ range x.C, x.data b c h w) / (x.C : ℝ)

/-- `t.pow(2)` entrywise. -/
def pow2T (x : Tensor4) : Tensor4 := x.map (fun v => v ^ 2)

/-- `(t + eps)` for a scalar `eps`, entrywise. -/
def addScalarT (x : Tensor4) (eps : ℝ) : Tensor4 := x.map (fun v => v + eps)

/-- `t.sqrt()` entrywise. -/
noncomputable def sqrtT (x : Tensor4) : Tensor4 := x.map Real.sqrt

/-- `1. / t` entrywise. -/
noncomputable def recipT (x : Tensor4) : Tensor4 := x.map (fun v => 1 / v)

/-- `p.view(1, C, 1, 1)` of a length-`C` parameter vector `p`. -/
def viewC (p : ℕ → ℝ) (C : ℕ) : Tensor4 where
  B := 1
  C := C
  H := 1
  W := 1
  data _ c _ _ := p c

/-- `mu` as computed by `LayerNormFunction.forward` (cgnet.py line 15). -/
noncomputable def LN.mu (x : Tensor4) : Tensor4 := mean1 x

/-- `var = (x - mu).pow(2).mean(1, keepdim=True)` (cgnet.py line 16): the
biased population variance over the channel axis. -/
noncomputable def LN.var (x : Tensor4) : Tensor4 :=
  mean1 (pow2T (Tensor4.bcSub x (LN.mu x)))

/-- `y = (x - mu) / (var + eps).sqrt()` (cgnet.py line 17): the normalized
tensor saved for backward, before the affine reparametrization. -/
noncomputable def LN.yhat (x : Tensor4) (eps : ℝ) : Tensor4 :=
  Tensor4.bcDiv (Tensor4.bcSub x (LN.mu x)) (sqrtT (addScalarT (LN.var x) eps))

/-- `LayerNormFunction.forward` (cgnet.py lines 12-20): normalize over the
channel axis, then `weight.view(1,C,1,1) * y + bias.view(1,C,1,1)` with `C`
read from the input's shape. -/
noncomputable def LN.fwd (x : Tensor4) (weight bias : ℕ → ℝ) (eps : ℝ) :
    Tensor4 :=
  Tensor4.bcAdd (Tensor4.bcMul (viewC weight x.C) (LN.yhat x eps))
    (viewC bias x.C)

/-- `t.sum(dim=3).sum(dim=2).sum(dim=0)`: collapse W, H and B, leaving a
per-channel vector. -/
noncomputable def sum320 (t : Tensor4) : ℕ → ℝ := fun c =>
  ∑ b ∈ range t.B, ∑ h ∈ range t.H, ∑ w ∈ range t.W, t.data b c h w

/-- `LayerNormFunction.backward` (cgnet.py lines 22-34): from the upstream
gradient and the saved `(y, var, weight)`, return the input gradient
`1/sqrt(var+eps) * (g - y * mean_gy - mean_g)` with
`g = grad_output * weight.view(1,C,1,1)` (`C` from `grad_output.size()`),
the weight gradient `(grad_output * y).sum(3).sum(2).sum(0)` and the bias
gradient `grad_output.sum(3).sum(2).sum(0)`. -/
noncomputable def LN.bwd (gradOutput y var : Tensor4) (weight : ℕ → ℝ)
    (eps : ℝ) : Tensor4 × (ℕ → ℝ) × (ℕ → ℝ) :=
  (Tensor4.bcMul (recipT (sqrtT (addScalarT var eps)))
      (Tensor4.bcSub
        (Tensor4.bcSub (Tensor4.bcMul gradOutput (viewC weight gradOutput.C))
          (Tensor4.bcMul y
            (mean1 (Tensor4.bcMul
              (Tensor4.bcMul gradOutput (viewC weight gradOutput.C)) y))))
        (mean1 (Tensor4.bcMul gradOutput (viewC weight gradOutput.C)))),
    sum320 (Tensor4.bcMul gradOutput y),
    sum320 gradOutput)

/-- An `UpsampleWithFlops(size=(h, w), mode="nearest")` module (cgnet.py
lines 83-90): PyTorch nearest-neighbor interpolation to the target size,
source row `⌊i * H_in / H_out⌋`. -/
def upsampleNearest (h w : ℕ) (x : Tensor4) : Tensor4 where
  B := x.B
  C := x.C
  H := h
  W := w
  data b c i j := x.data b c (i * x.H / h) (j * x.W / w)

/-- `nn.AdaptiveAvgPool2d(1)`: global average over the spatial axes, output
1×1. -/
noncomputable def adaptiveAvgPool1 (x : Tensor4) : Tensor4 where
  B := x.B
  C := x.C
  H := 1
  W := 1
  data b c _ _ :=
    (∑ h ∈ range x.H, ∑ w ∈ range x.W, x.data b c h w) / ((x.H * x.W : ℕ) : ℝ)

/-- A `CascadedGazeBlock` module (cgnet.py lines 110-190): configuration and
parameter values of every sub-module.  The two dropouts are `nn.Identity`
because every block is constructed with the default `drop_out_rate=0`. -/
structure CGBlockLayer where
  c : ℕ
  gceConv : ℕ
  conv1 : Conv2dLayer
  conv2 : Conv2dLayer
  gce : List DSConvLayer
  projectOut : Conv2dLayer
  scaConv : Conv2dLayer
  conv4 : Conv2dLayer
  conv5 : Conv2dLayer
  n1w : ℕ → ℝ
  n1b : ℕ → ℝ
  n2w : ℕ → ℝ
  n2b : ℕ → ℝ
  eps : ℝ
  beta : ℕ → ℝ
  gamma : ℕ → ℝ

/-- Raw parameter values for one `CascadedGazeBlock` (the values of its
trainable tensors, at any stage of training). -/
structure CGBlockRaw where
  conv1 : ConvRaw
  conv2 : ConvRaw
  gce : ℕ → ConvRaw × ConvRaw
  projectOut : ConvRaw
  sca : ConvRaw
  conv4 : ConvRaw
  conv5 : ConvRaw
  n1w : ℕ → ℝ
  n1b : ℕ → ℝ
  n2w : ℕ → ℝ
  n2b : ℕ → ℝ
  beta : ℕ → ℝ
  gamma : ℕ → ℝ

/-- `CascadedGazeBlock.__init__(c, GCE_Conv, DW_Expand=2, FFN_Expand=2,
drop_out_rate=0)`: `dw_channel = 2c`; the `GCE_Conv == 3` variant uses three
GCE convs (kernels/strides `[2,4,4]`) and `int(dw_channel * 2.5) = 5c`
channels after concatenation, the other uses two (kernels `[3,3]`, strides
`[2,3]`) and `dw_channel * 2 = 4c`; `ffn_channel = 2c`; both norms are
`LayerNorm2d(c)` with `eps = 1e-6`. -/
def mkCGBlock (c g : ℕ) (θ : CGBlockRaw) : CGBlockLayer where
  c := c
  gceConv := g
  conv1 := ⟨c, 2 * c, 1, 1, 0, 1, true, θ.conv1.w, θ.conv1.b⟩
  conv2 := ⟨2 * c, 2 * c, 3, 1, 1, 2 * c, true, θ.conv2.w, θ.conv2.b⟩
  gce :=
    if g = 3 then mkGCE c [(2, 2), (4, 4), (4, 4)] 0 false θ.gce
    else mkGCE c [(3, 2), (3, 3)] 0 false θ.gce
  projectOut :=
    ⟨if g = 3 then 5 * c else 4 * c, c, 1, 1, 0, 1, true,
      θ.projectOut.w, θ.projectOut.b⟩
  scaConv :=
    ⟨if g = 3 then 5 * c else 4 * c, if g = 3 then 5 * c else 4 * c,
      1, 1, 0, 1, true, θ.sca.w, θ.sca.b⟩
  conv4 := ⟨c, 2 * c, 1, 1, 0, 1, true, θ.conv4.w, θ.conv4.b⟩
  conv5 := ⟨c, c, 1, 1, 0, 1, true, θ.conv5.w, θ.conv5.b⟩
  n1w := θ.n1w
  n1b := θ.n1b
  n2w := θ.n2w
  n2b := θ.n2b
  eps := 1e-6
  beta := θ.beta
  gamma := θ.gamma

/-- The all-zero tensor of empty shape, used only as the (never reached)
default when destructuring the GCE output list. -/
def zero4 : Tensor4 := ⟨0, 0, 0, 0, fun _ _ _ _ => 0⟩

/-- First stage of `CascadedGazeBlock.forward` (cgnet.py lines 166-169):
`x = gelu(conv2(conv1(norm1(inp))))`. -/
noncomputable def CGBlockLayer.stage1 (blk : CGBlockLayer) (inp : Tensor4) :
    Tensor4 :=
  geluT (blk.conv2.fwd (blk.conv1.fwd (LN.fwd inp blk.n1w blk.n1b blk.eps)))

/-- The GCE outputs of `CascadedGazeBlock.forward` (cgnet.py lines 172-177):
`self.GCE(x_1 + x_2)` on the sum of the two channel halves. -/
noncomputable def CGBlockLayer.gceOuts (blk : CGBlockLayer) (inp : Tensor4) :
    List Tensor4 :=
  GCE.fwd blk.gce
    (Tensor4.bcAdd (chunk2Fst (blk.stage1 inp)) (chunk2Snd (blk.stage1 inp)))

/-- The range-fusion concatenation of `CascadedGazeBlock.forward` (cgnet.py
lines 173-178): concatenate `x` with the GCE outputs, each upsampled back to
the input's spatial size `(h, w)` with nearest-neighbor interpolation; three
GCE outputs when `GCE_Conv == 3`, else two. -/
noncomputable def CGBlockLayer.fused (blk : CGBlockLayer) (inp : Tensor4) :
    Tensor4 :=
  if blk.gceConv = 3 then
    cat2 (cat2 (cat2 (blk.stage1 inp)
        (upsampleNearest inp.H inp.W ((blk.gceOuts inp).getD 0 zero4)))
      (upsampleNearest inp.H inp.W ((blk.gceOuts inp).getD 1 zero4)))
      (upsampleNearest inp.H inp.W ((blk.gceOuts inp).getD 2 zero4))
  else
    cat2 (cat2 (blk.stage1 inp)
        (upsampleNearest inp.H inp.W ((blk.gceOuts inp).getD 0 zero4)))
      (upsampleNearest inp.H inp.W ((blk.gceOuts inp).getD 1 zero4))

/-- Attention and projection of `CascadedGazeBlock.forward` (cgnet.py lines
179-180): `x = project_out(sca(x) * x)`. -/
noncomputable def CGBlockLayer.projected (blk : CGBlockLayer)
    (inp : Tensor4) : Tensor4 :=
  blk.projectOut.fwd
    (Tensor4.bcMul (blk.scaConv.fwd (adaptiveAvgPool1 (blk.fused inp)))
      (blk.fused inp))

/-- First residual of `CascadedGazeBlock.forward` (cgnet.py line 184):
`y = inp + x * beta` (dropout1 is the identity). -/
noncomputable def CGBlockLayer.resid1 (blk : CGBlockLayer) (inp : Tensor4) :
    Tensor4 :=
  Tensor4.bcAdd inp (Tensor4.bcMul (blk.projected inp) (viewC blk.beta blk.c))

/-- `CascadedGazeBlock.forward` (cgnet.py lines 160-190), with the dropouts
equal to the identity (`drop_out_rate = 0`): the staged computation above
followed by the channel-mixing FFN `conv5(sg(conv4(norm2(y))))` and the
second residual `y + x * gamma`. -/
noncomputable def CGBlockLayer.fwd (blk : CGBlockLayer) (inp : Tensor4) :
    Tensor4 :=
  Tensor4.bcAdd (blk.resid1 inp)
    (Tensor4.bcMul
      (blk.conv5.fwd (SimpleGate.fwd (blk.conv4.fwd
        (LN.fwd (blk.resid1 inp) blk.n2w blk.n2b blk.eps))))
      (viewC blk.gamma blk.c))

/-- An `NAFBlock0` module (cgnet.py lines 193-252): configuration and
parameter values; dropouts are the identity (`drop_out_rate = 0`). -/
structure NAFLayer where
  c : ℕ
  conv1 : Conv2dLayer
  conv2 : Conv2dLayer
  conv3 : Conv2dLayer
  scaConv : Conv2dLayer
  conv4 : Conv2dLayer
  conv5 : Conv2dLayer
  n1w : ℕ → ℝ
  n1b : ℕ → ℝ
  n2w : ℕ → ℝ
  n2b : ℕ → ℝ
  eps : ℝ
  beta : ℕ → ℝ
  gamma : ℕ → ℝ

/-- Raw parameter values for one `NAFBlock0`. -/
structure NAFRaw where
  conv1 : ConvRaw
  conv2 : ConvRaw
  conv3 : ConvRaw
  sca : ConvRaw
  conv4 : ConvRaw
  conv5 : ConvRaw
  n1w : ℕ → ℝ
  n1b : ℕ → ℝ
  n2w : ℕ → ℝ
  n2b : ℕ → ℝ
  beta : ℕ → ℝ
  gamma : ℕ → ℝ

/-- `NAFBlock0.__init__(c, DW_Expand=2, FFN_Expand=2, drop_out_rate=0)`:
`dw_channel = 2c`, `ffn_channel = 2c`; both norms `LayerNorm2d(c)` with
`eps = 1e-6`. -/
def mkNAF (c : ℕ) (θ : NAFRaw) : NAFLayer where
  c := c
  conv1 := ⟨c, 2 * c, 1, 1, 0, 1, true, θ.conv1.w, θ.conv1.b⟩
  conv2 := ⟨2 * c, 2 * c, 3, 1, 1, 2 * c, true, θ.conv2.w, θ.conv2.b⟩
  conv3 := ⟨c, c, 1, 1, 0, 1, true, θ.conv3.w, θ.conv3.b⟩
  scaConv := ⟨c, c, 1, 1, 0, 1, true, θ.sca.w, θ.sca.b⟩
  conv4 := ⟨c, 2 * c, 1, 1, 0, 1, true, θ.conv4.w, θ.conv4.b⟩
  conv5 := ⟨c, c, 1, 1, 0, 1, true, θ.conv5.w, θ.conv5.b⟩
  n1w := θ.n1w
  n1b := θ.n1b
  n2w := θ.n2w
  n2b := θ.n2b
  eps := 1e-6
  beta := θ.beta
  gamma := θ.gamma

/-- First stage of `NAFBlock0.forward` (cgnet.py lines 233-239):
`x = conv3(sg(conv2(conv1(norm1(inp)))) * sca(...))`. -/
noncomputable def NAFLayer.attnOut (blk : NAFLayer) (inp : Tensor4) :
    Tensor4 :=
  blk.conv3.fwd
    (Tensor4.bcMul
      (SimpleGate.fwd (blk.conv2.fwd (blk.conv1.fwd
        (LN.fwd inp blk.n1w blk.n1b blk.eps))))
      (blk.scaConv.fwd (adaptiveAvgPool1
        (SimpleGate.fwd (blk.conv2.fwd (blk.conv1.fwd
          (LN.fwd inp blk.n1w blk.n1b blk.eps)))))))

/-- First residual of `NAFBlock0.forward` (cgnet.py line 243):
`y = inp + x * beta` (dropout1 is the identity). -/
noncomputable def NAFLayer.resid1 (blk : NAFLayer) (inp : Tensor4) :
    Tensor4 :=
  Tensor4.bcAdd inp (Tensor4.bcMul (blk.attnOut inp) (viewC blk.beta blk.c))

/-- `NAFBlock0.forward` (cgnet.py lines 230-252), dropouts the identity:
the staged computation above followed by the channel-mixing FFN
`conv5(sg(conv4(norm2(y))))` and the second residual `y + x * gamma`. -/
noncomputable def NAFLayer.fwd (blk : NAFLayer) (inp : Tensor4) : Tensor4 :=
  Tensor4.bcAdd (blk.resid1 inp)
    (Tensor4.bcMul
      (blk.conv5.fwd (SimpleGate.fwd (blk.conv4.fwd
        (LN.fwd (blk.resid1 inp) blk.n2w blk.n2b blk.eps))))
      (viewC blk.gamma blk.c))

/-- `nn.Sequential` of CascadedGaze blocks: apply them left to right. -/
noncomputable def seqCG (blks : List CGBlockLayer) (x : Tensor4) : Tensor4 :=
  blks.foldl (fun a blk => blk.fwd a) x

/-- `nn.Sequential` of NAF blocks: apply them left to right. -/
noncomputable def seqNAF (blks : List NAFLayer) (x : Tensor4) : Tensor4 :=
  blks.foldl (fun a blk => blk.fwd a) x

/-- The `CascadedGaze` module (cgnet.py lines 255-321): its sub-modules.
Each element of `ups` is the 1×1 convolution of the
`Sequential(Conv2d(chan, 2*chan, 1, bias=False), CustomPixelShuffle(2))`
upsampler. -/
structure CGNet where
  imgChannel : ℕ
  intro : Conv2dLayer
  ending : Conv2dLayer
  encoders : List (List CGBlockLayer)
  downs : List Conv2dLayer
  middleBlks : List NAFLayer
  ups : List Conv2dLayer
  decoders : List (List NAFLayer)
  padder_size : ℕ

/-- Raw parameter values for a whole `CascadedGaze` network, indexed by
stage and position. -/
structure CGNetRaw where
  intro : ConvRaw
  ending : ConvRaw
  enc : ℕ → ℕ → CGBlockRaw
  down : ℕ → ConvRaw
  mid : ℕ → NAFRaw
  up : ℕ → ConvRaw
  dec : ℕ → ℕ → NAFRaw

/-- `CascadedGaze.__init__(img_channel)` (cgnet.py lines 257-321) with its
hard-coded configuration `width = 60`, `enc_blk_nums = [2, 2, 4, 6]`,
`middle_blk_num = 10`, `dec_blk_nums = [2, 2, 2, 2]` and
`GCE_CONVS_nums = [3, 3, 2, 2]`.  The encoder loop doubles `chan` from 60 to
960; the decoder loop halves it back; `padder_size = 2 ** len(encoders)`
with the four appended encoder stages. -/
def mkCGNet (imgChannel : ℕ) (θ : CGNetRaw) : CGNet where
  imgChannel := imgChannel
  intro := ⟨imgChannel, 60, 3, 1, 1, 1, true, θ.intro.w, θ.intro.b⟩
  ending := ⟨60, imgChannel, 3, 1, 1, 1, true, θ.ending.w, θ.ending.b⟩
  encoders :=
    [(List.range 2).map fun j => mkCGBlock 60 3 (θ.enc 0 j),
     (List.range 2).map fun j => mkCGBlock 120 3 (θ.enc 1 j),
     (List.range 4).map fun j => mkCGBlock 240 2 (θ.enc 2 j),
     (List.range 6).map fun j => mkCGBlock 480 2 (θ.enc 3 j)]
  downs :=
    [⟨60, 120, 2, 2, 0, 1, true, (θ.down 0).w, (θ.down 0).b⟩,
     ⟨120, 240, 2, 2, 0, 1, true, (θ.down 1).w, (θ.down 1).b⟩,
     ⟨240, 480, 2, 2, 0, 1, true, (θ.down 2).w, (θ.down 2).b⟩,
     ⟨480, 960, 2, 2, 0, 1, true, (θ.down 3).w, (θ.down 3).b⟩]
  middleBlks := (List.range 10).map fun j => mkNAF 960 (θ.mid j)
  ups :=
    [⟨960, 1920, 1, 1, 0, 1, false, (θ.up 0).w, (θ.up 0).b⟩,
     ⟨480, 960, 1, 1, 0, 1, false, (θ.up 1).w, (θ.up 1).b⟩,
     ⟨240, 480, 1, 1, 0, 1, false, (θ.up 2).w, (θ.up 2).b⟩,
     ⟨120, 240, 1, 1, 0, 1, false, (θ.up 3).w, (θ.up 3).b⟩]
  decoders :=
    [(List.range 2).map fun j => mkNAF 480 (θ.dec 0 j),
     (List.range 2).map fun j => mkNAF 240 (θ.dec 1 j),
     (List.range 2).map fun j => mkNAF 120 (θ.dec 2 j),
     (List.range 2).map fun j => mkNAF 60 (θ.dec 3 j)]
  padder_size := 2 ^ 4

/-- One decoder upsampler: `Sequential(Conv2d(chan, 2*chan, 1, bias=False),
CustomPixelShuffle(2))`. -/
noncomputable def upFwd (l : Conv2dLayer) (x : Tensor4) : Tensor4 :=
  CustomPixelShuffle.fwd 2 (l.fwd x)

/-- The encoder loop of `CascadedGaze.forward` (cgnet.py lines 331-334):
for each (encoder, down) pair, run the encoder, save its output, then
downsample.  Returns the saved outputs in order and the final tensor. -/
noncomputable def encLoop :
    List (List CGBlockLayer × Conv2dLayer) → Tensor4 → List Tensor4 × Tensor4
  | [], x => ([], x)
  | (e, d) :: rest, x =>
    let y := seqCG e x
    let p := encLoop rest (d.fwd y)
    (y :: p.1, p.2)

/-- The decoder loop of `CascadedGaze.forward` (cgnet.py lines 338-341):
for each (decoder, up) pair and the next saved skip tensor, upsample, add
the skip, and run the decoder blocks.  Like Python's `zip`, it stops when
either list is exhausted. -/
noncomputable def decLoop :
    List (List NAFLayer × Conv2dLayer) → List Tensor4 → Tensor4 → Tensor4
  | (dec, upc) :: rest, skip :: skips, x =>
    decLoop rest skips (seqNAF dec (Tensor4.bcAdd (upFwd upc x) skip))
  | _, _, x => x

/-- Observer of the decoder loop used to state claims about it: the list of
(upsampled tensor, skip tensor) pairs fed to the `x = x + enc_skip`
addition, stage by stage. -/
noncomputable def decTrace :
    List (List NAFLayer × Conv2dLayer) → List Tensor4 → Tensor4 →
      List (Tensor4 × Tensor4)
  | (dec, upc) :: rest, skip :: skips, x =>
    (upFwd upc x, skip) ::
      decTrace rest skips (seqNAF dec (Tensor4.bcAdd (upFwd upc x) skip))
  | _, _, _ => []

/-- The slice `x[:, :, :h, :w]`. -/
def crop (h w : ℕ) (x : Tensor4) : Tensor4 where
  B := x.B
  C := x.C
  H := min x.H h
  W := min x.W w
  data := x.data

/-- `CascadedGaze.forward` (cgnet.py lines 323-346): remember the input
height and width, pad to a multiple of `padder_size`, intro conv, encoder
loop (saving skips), middle blocks, decoder loop consuming the saved skips
in reverse order, ending conv, add the padded input, and crop back to the
original height and width. -/
noncomputable def CGNet.fwd (net : CGNet) (inp : Tensor4) : Tensor4 :=
  let H := inp.H
  let W := inp.W
  let inp1 := checkImageSize net.padder_size inp
  let ev := encLoop (net.encoders.zip net.downs) (net.intro.fwd inp1)
  let xm := seqNAF net.middleBlks ev.2
  let xd := decLoop (net.decoders.zip net.ups) ev.1.reverse xm
  crop H W (Tensor4.bcAdd (net.ending.fwd xd) inp1)

/-- Observer of `CascadedGaze.forward`: the list `encs` of saved encoder
stage outputs, in the order they are appended (cgnet.py lines 329-334). -/
noncomputable def CGNet.encSaved (net : CGNet) (inp : Tensor4) :
    List Tensor4 :=
  (encLoop (net.encoders.zip net.downs)
    (net.intro.fwd (checkImageSize net.padder_size inp))).1

/-- Observer of `CascadedGaze.forward`: the tensor after the middle blocks
(cgnet.py line 336). -/
noncomputable def CGNet.midOut (net : CGNet) (inp : Tensor4) : Tensor4 :=
  seqNAF net.middleBlks
    (encLoop (net.encoders.zip net.downs)
      (net.intro.fwd (checkImageSize net.padder_size inp))).2

/-- Observer of `CascadedGaze.forward`: the (upsampled tensor, skip tensor)
pairs fed to the `x = x + enc_skip` additions of the decoder loop (cgnet.py
lines 338-341), in execution order. -/
noncomputable def CGNet.decPairs (net : CGNet) (inp : Tensor4) :
    List (Tensor4 × Tensor4) :=
  decTrace (net.decoders.zip net.ups) (net.encSaved inp).reverse
    (net.midOut inp)

/-- The channel mean of `x` at pixel (n, h, w), as a plain formula. -/
noncomputable def chMeanAt (x : Tensor4) (n h w : ℕ) : ℝ :=
  (∑ i ∈ range x.C, x.data n i h w) / (x.C : ℝ)

/-- The biased channel variance of `x` at pixel (n, h, w), as a plain
formula. -/
noncomputable def chVarAt (x : Tensor4) (n h w : ℕ) : ℝ :=
  (∑ i ∈ range x.C, (x.data n i h w - chMeanAt x n h w) ^ 2) / (x.C : ℝ)

/-! ### Concrete sample tensors used by witnesses -/

/-- A 1×1×2×2 tensor with every entry 5. -/
def t2x2 : Tensor4 := ⟨1, 1, 2, 2, fun _ _ _ _ => 5⟩

/-- A 1×1×16×16 tensor with every entry 5. -/
def t16x16 : Tensor4 := ⟨1, 1, 16, 16, fun _ _ _ _ => 5⟩

/-- A 1×4×3×3 tensor whose entry at (b, c, h, w) is the real number
`c + 10 h + 100 w`. -/
def t4x3 : Tensor4 :=
  ⟨1, 4, 3, 3, fun _ c h w => (c : ℝ) + 10 * h + 100 * w⟩

/-- A zero-configured depthwise separable conv, used only as a `getD`
default. -/
def zeroDS : DSConvLayer :=
  mkDSConv 0 0 0 0 0 false ⟨fun _ _ _ _ => 0, fun _ => 0⟩
    ⟨fun _ _ _ _ => 0, fun _ => 0⟩

/-- All-zero parameter values for one conv. -/
def zeroConvRaw : ConvRaw := ⟨fun _ _ _ _ => 0, fun _ => 0⟩

/-- All-zero parameter values for one CascadedGaze block. -/
def zeroCGRaw : CGBlockRaw :=
  ⟨zeroConvRaw, zeroConvRaw, fun _ => (zeroConvRaw, zeroConvRaw),
    zeroConvRaw, zeroConvRaw, zeroConvRaw, zeroConvRaw,
    fun _ => 0, fun _ => 0, fun _ => 0, fun _ => 0, fun _ => 0, fun _ => 0⟩

/-- All-zero parameter values for one NAF block. -/
def zeroNAFRaw : NAFRaw :=
  ⟨zeroConvRaw, zeroConvRaw, zeroConvRaw, zeroConvRaw, zeroConvRaw,
    zeroConvRaw,
    fun _ => 0, fun _ => 0, fun _ => 0, fun _ => 0, fun _ => 0, fun _ => 0⟩

/-- All-zero parameter values for the whole network. -/
def zeroNetRaw : CGNetRaw :=
  ⟨zeroConvRaw, zeroConvRaw, fun _ _ => zeroCGRaw, fun _ => zeroConvRaw,
    fun _ => zeroNAFRaw, fun _ => zeroConvRaw, fun _ _ => zeroNAFRaw⟩

/-- A 1×1×1×1 tensor holding 5. -/
def t1x1 : Tensor4 := ⟨1, 1, 1, 1, fun _ _ _ _ => 5⟩

/-- The tensor `x` with the single entry at (n, c, h, w) replaced by `t`. -/
def updT (x : Tensor4) (n c h w : ℕ) (t : ℝ) : Tensor4 where
  B := x.B
  C := x.C
  H := x.H
  W := x.W
  data n' c' h' w' :=
    if n' = n ∧ c' = c ∧ h' = h ∧ w' = w then t else x.data n' c' h' w'

/-- The vector `v` with entry `c` replaced by `t`. -/
def updV (v : ℕ → ℝ) (c : ℕ) (t : ℝ) : ℕ → ℝ :=
  fun i => if i = c then t else v i

/-- The scalar pairing `∑ go ⊙ LayerNormFunction.forward(z, wv, bv, eps)`
over all valid indices: the linear functional whose partial derivatives the
backward pass must produce. -/
noncomputable def LNgradPairing (go z : Tensor4) (wv bv : ℕ → ℝ) (eps : ℝ) :
    ℝ :=
  ∑ n ∈ range z.B, ∑ c ∈ range z.C, ∑ h ∈ range z.H, ∑ w ∈ range z.W,
    go.data n c h w * (LN.fwd z wv bv eps).data n c h w

/-- The true partial derivative of output channel `i` of the normalization
at pixel (n, h, w) with respect to the input entry at channel `c` of the
same pixel (quotient-rule form). -/
noncomputable def chanSlope (x : Tensor4) (n c h w i : ℕ) (wv : ℕ → ℝ)
    (eps : ℝ) : ℝ :=
  wv i * ((((if i = c then (1 : ℝ) else 0) - 1 / x.C) *
      Real.sqrt (chVarAt x n h w + eps) -
    (x.data n i h w - chMeanAt x n h w) *
      (1 / (2 * Real.sqrt (chVarAt x n h w + eps)) *
        (2 * (x.data n c h w - chMeanAt x n h w) / x.C))) /
    Real.sqrt (chVarAt x n h w + eps) ^ 2)

/-! ### Basic lemmas about broadcast arithmetic and shapes -/

namespace Tensor4

@[simp] lemma bdim_one_left (m : ℕ) : bdim 1 m = m := by simp [bdim]

@[simp] lemma bdim_one_right (n : ℕ) : bdim n 1 = n := by
  unfold bdim
  split <;> omega

@[simp] lemma bdim_self (n : ℕ) : bdim n n = n := by simp [bdim]

@[simp] lemma bidx_one (i : ℕ) : bidx 1 i = 0 := by simp [bidx]

lemma bidx_eq_of_lt {n i : ℕ} (h : i < n) : bidx n i = i := by
  unfold bidx
  split <;> omega

@[simp] lemma bcAdd_B (x y : Tensor4) : (bcAdd x y).B = bdim x.B y.B := rfl
@[simp] lemma bcAdd_C (x y : Tensor4) : (bcAdd x y).C = bdim x.C y.C := rfl
@[simp] lemma bcAdd_H (x y : Tensor4) : (bcAdd x y).H = bdim x.H y.H := rfl
@[simp] lemma bcAdd_W (x y : Tensor4) : (bcAdd x y).W = bdim x.W y.W := rfl

@[simp] lemma bcSub_B (x y : Tensor4) : (bcSub x y).B = bdim x.B y.B := rfl
@[simp] lemma bcSub_C (x y : Tensor4) : (bcSub x y).C = bdim x.C y.C := rfl
@[simp] lemma bcSub_H (x y : Tensor4) : (bcSub x y).H = bdim x.H y.H := rfl
@[simp] lemma bcSub_W (x y : Tensor4) : (bcSub x y).W = bdim x.W y.W := rfl

@[simp] lemma bcMul_B (x y : Tensor4) : (bcMul x y).B = bdim x.B y.B := rfl
@[simp] lemma bcMul_C (x y : Tensor4) : (bcMul x y).C = bdim x.C y.C := rfl
@[simp] lemma bcMul_H (x y : Tensor4) : (bcMul x y).H = bdim x.H y.H := rfl
@[simp] lemma bcMul_W (x y : Tensor4) : (bcMul x y).W = bdim x.W y.W := rfl

@[simp] lemma bcDiv_B (x y : Tensor4) : (bcDiv x y).B = bdim x.B y.B := rfl
@[simp] lemma bcDiv_C (x y : Tensor4) : (bcDiv x y).C = bdim x.C y.C := rfl
@[simp] lemma bcDiv_H (x y : Tensor4) : (bcDiv x y).H = bdim x.H y.H := rfl
@[simp] lemma bcDiv_W (x y : Tensor4) : (bcDiv x y).W = bdim x.W y.W := rfl

@[simp] lemma map_B (f : ℝ → ℝ) (x : Tensor4) : (map f x).B = x.B := rfl
@[simp] lemma map_C (f : ℝ → ℝ) (x : Tensor4) : (map f x).C = x.C := rfl
@[simp] lemma map_H (f : ℝ → ℝ) (x : Tensor4) : (map f x).H = x.H := rfl
@[simp] lemma map_W (f : ℝ → ℝ) (x : Tensor4) : (map f x).W = x.W := rfl

end Tensor4

@[simp] lemma conv_fwd_B (l : Conv2dLayer) (x : Tensor4) :
    (l.fwd x).B = x.B := rfl
@[simp] lemma conv_fwd_C (l : Conv2dLayer) (x : Tensor4) :
    (l.fwd x).C = l.Cout := rfl
@[simp] lemma conv_fwd_H (l : Conv2dLayer) (x : Tensor4) :
    (l.fwd x).H = (x.H + 2 * l.pad - l.K) / l.stride + 1 := rfl
@[simp] lemma conv_fwd_W (l : Conv2dLayer) (x : Tensor4) :
    (l.fwd x).W = (x.W + 2 * l.pad - l.K) / l.stride + 1 := rfl

@[simp] lemma geluT_B (x : Tensor4) : (geluT x).B = x.B := rfl
@[simp] lemma geluT_C (x : Tensor4) : (geluT x).C = x.C := rfl
@[simp] lemma geluT_H (x : Tensor4) : (geluT x).H = x.H := rfl
@[simp] lemma geluT_W (x : Tensor4) : (geluT x).W = x.W := rfl

@[simp] lemma chunk2Fst_B (x : Tensor4) : (chunk2Fst x).B = x.B := rfl
@[simp] lemma chunk2Fst_C (x : Tensor4) : (chunk2Fst x).C = (x.C + 1) / 2 :=
  rfl
@[simp] lemma chunk2Fst_H (x : Tensor4) : (chunk2Fst x).H = x.H := rfl
@[simp] lemma chunk2Fst_W (x : Tensor4) : (chunk2Fst x).W = x.W := rfl

@[simp] lemma chunk2Snd_B (x : Tensor4) : (chunk2Snd x).B = x.B := rfl
@[simp] lemma chunk2Snd_C (x : Tensor4) :
    (chunk2Snd x).C = x.C - (x.C + 1) / 2 := rfl
@[simp] lemma chunk2Snd_H (x : Tensor4) : (chunk2Snd x).H = x.H := rfl
@[simp] lemma chunk2Snd_W (x : Tensor4) : (chunk2Snd x).W = x.W := rfl

@[simp] lemma cat2_B (x y : Tensor4) : (cat2 x y).B = x.B := rfl
@[simp] lemma cat2_C (x y : Tensor4) : (cat2 x y).C = x.C + y.C := rfl
@[simp] lemma cat2_H (x y : Tensor4) : (cat2 x y).H = x.H := rfl
@[simp] lemma cat2_W (x y : Tensor4) : (cat2 x y).W = x.W := rfl

@[simp] lemma upsample_B (h w : ℕ) (x : Tensor4) :
    (upsampleNearest h w x).B = x.B := rfl
@[simp] lemma upsample_C (h w : ℕ) (x : Tensor4) :
    (upsampleNearest h w x).C = x.C := rfl
@[simp] lemma upsample_H (h w : ℕ) (x : Tensor4) :
    (upsampleNearest h w x).H = h := rfl
@[simp] lemma upsample_W (h w : ℕ) (x : Tensor4) :
    (upsampleNearest h w x).W = w := rfl

@[simp] lemma pool_B (x : Tensor4) : (adaptiveAvgPool1 x).B = x.B := rfl
@[simp] lemma pool_C (x : Tensor4) : (adaptiveAvgPool1 x).C = x.C := rfl
@[simp] lemma pool_H (x : Tensor4) : (adaptiveAvgPool1 x).H = 1 := rfl
@[simp] lemma pool_W (x : Tensor4) : (adaptiveAvgPool1 x).W = 1 := rfl

@[simp] lemma mean1_B (x : Tensor4) : (mean1 x).B = x.B := rfl
@[simp] lemma mean1_C (x : Tensor4) : (mean1 x).C = 1 := rfl
@[simp] lemma mean1_H (x : Tensor4) : (mean1 x).H = x.H := rfl
@[simp] lemma mean1_W (x : Tensor4) : (mean1 x).W = x.W := rfl

@[simp] lemma viewC_B (p : ℕ → ℝ) (C : ℕ) : (viewC p C).B = 1 := rfl
@[simp] lemma viewC_C (p : ℕ → ℝ) (C : ℕ) : (viewC p C).C = C := rfl
@[simp] lemma viewC_H (p : ℕ → ℝ) (C : ℕ) : (viewC p C).H = 1 := rfl
@[simp] lemma viewC_W (p : ℕ → ℝ) (C : ℕ) : (viewC p C).W = 1 := rfl

@[simp] lemma sqrtT_eq (x : Tensor4) : sqrtT x = x.map Real.sqrt := rfl
@[simp] lemma addScalarT_eq (x : Tensor4) (e : ℝ) :
    addScalarT x e = x.map (fun v => v + e) := rfl
@[simp] lemma pow2T_eq (x : Tensor4) : pow2T x = x.map (fun v => v ^ 2) := rfl
@[simp] lemma recipT_eq (x : Tensor4) : recipT x = x.map (fun v => 1 / v) :=
  rfl

@[simp] lemma LN_fwd_B (x : Tensor4) (wv bv : ℕ → ℝ) (e : ℝ) :
    (LN.fwd x wv bv e).B = x.B := by
  simp [LN.fwd, LN.yhat, LN.var, LN.mu]

@[simp] lemma LN_fwd_C (x : Tensor4) (wv bv : ℕ → ℝ) (e : ℝ) :
    (LN.fwd x wv bv e).C = x.C := by
  simp [LN.fwd, LN.yhat, LN.var, LN.mu]

@[simp] lemma LN_fwd_H (x : Tensor4) (wv bv : ℕ → ℝ) (e : ℝ) :
    (LN.fwd x wv bv e).H = x.H := by
  simp [LN.fwd, LN.yhat, LN.var, LN.mu]

@[simp] lemma LN_fwd_W (x : Tensor4) (wv bv : ℕ → ℝ) (e : ℝ) :
    (LN.fwd x wv bv e).W = x.W := by
  simp [LN.fwd, LN.yhat, LN.var, LN.mu]


/-! ### C10: check_image_size pads minimally, bottom/right, preserving data -/

/-- C10: `check_image_size` keeps the batch and channel extents, grows the
height to `H + (16 - H mod 16) mod 16` and the width to
`W + (16 - W mod 16) mod 16` (padding only on the bottom and right), leaves
every original entry unchanged at its original index, and when both extents
are already multiples of `padder_size = 16` the result equals the input. -/
theorem checkImageSize_minimal_pad (x : Tensor4) :
    (checkImageSize 16 x).B = x.B ∧ (checkImageSize 16 x).C = x.C ∧
    (checkImageSize 16 x).H = x.H + (16 - x.H % 16) % 16 ∧
    (checkImageSize 16 x).W = x.W + (16 - x.W % 16) % 16 ∧
    (∀ b c h w, h < x.H → w < x.W →
      (checkImageSize 16 x).data b c h w = x.data b c h w) ∧
    (16 ∣ x.H → 16 ∣ x.W → Tensor4.Eqv (checkImageSize 16 x) x) := by
  refine ⟨rfl, rfl, rfl, rfl, ?_, ?_⟩
  · intro b c h w hh hw
    simp only [checkImageSize, fpad]
    split
    · simp
    · omega
  · intro hH hW
    have hH0 : (16 - x.H % 16) % 16 = 0 := by omega
    have hW0 : (16 - x.W % 16) % 16 = 0 := by omega
    refine ⟨?_, ?_, ?_, ?_, ?_⟩
    · rfl
    · rfl
    · show x.H + 0 + (16 - x.H % 16) % 16 = x.H
      omega
    · show x.W + 0 + (16 - x.W % 16) % 16 = x.W
      omega
    · intro b hb c hc h hh w hw
      have hh2 : h < x.H := by
        simpa [checkImageSize, fpad, hH0] using hh
      have hw2 : w < x.W := by
        simpa [checkImageSize, fpad, hW0] using hw
      simp only [checkImageSize, fpad]
      split
      · simp
      · omega

/-- Witness for C10 at concrete inputs: a 2×2 image keeps its entry at
(0, 0, 1, 1), and a 16×16 image is returned unchanged. -/
theorem checkImageSize_minimal_pad_witness :
    (checkImageSize 16 t2x2).data 0 0 1 1 = t2x2.data 0 0 1 1 ∧
    Tensor4.Eqv (checkImageSize 16 t16x16) t16x16 :=
  ⟨(checkImageSize_minimal_pad t2x2).2.2.2.2.1 0 0 1 1 (by decide) (by decide),
    (checkImageSize_minimal_pad t16x16).2.2.2.2.2 (by decide) (by decide)⟩

/-! ### C2: the padding is constant-zero, not reflection -/

/-- Counterexample to C2.  Take the 1×1×2×2 input whose four entries all
hold 5: its height is not a multiple of 16, so rows are added, yet the first
added entry (index (0,0,2,0)) holds the constant 0 — a mirror reflection of
the border-adjacent values would hold 5. -/
theorem pad_constant_cex :
    (∀ h < 2, ∀ w < 2, t2x2.data 0 0 h w = 5) ∧
    (checkImageSize 16 t2x2).H = 16 ∧
    (checkImageSize 16 t2x2).data 0 0 2 0 = 0 := by
  refine ⟨fun h _ w _ => rfl, rfl, ?_⟩
  simp [checkImageSize, fpad, t2x2]

/-- C2 amended: the padding applied by `check_image_size` is `F.pad`'s
default constant mode — every entry outside the original index range of the
input holds the constant 0, regardless of the input's values. -/
theorem pad_constant_zero (x : Tensor4) (b c h w : ℕ)
    (hout : x.H ≤ h ∨ x.W ≤ w) :
    (checkImageSize 16 x).data b c h w = 0 := by
  simp only [checkImageSize, fpad]
  rw [if_neg]
  omega

/-- Witness for the amended C2 at a concrete input: the first padded row of
the all-5 2×2 image holds 0. -/
theorem pad_constant_zero_witness :
    (checkImageSize 16 t2x2).data 0 0 2 0 = 0 :=
  pad_constant_zero t2x2 0 0 2 0 (by left; decide)

/-! ### C6: SimpleGate splits channels and multiplies the halves -/

/-- C6: on an input with an even channel count `2k`, `SimpleGate.forward`
returns a tensor with `k` channels and otherwise unchanged extents whose
entry at (b, c, h, w) is the product of the entries at channel `c` and
channel `k + c` of the input. -/
theorem simpleGate_split_mul (x : Tensor4) (k : ℕ) (hC : x.C = 2 * k) :
    (SimpleGate.fwd x).B = x.B ∧ (SimpleGate.fwd x).C = k ∧
    (SimpleGate.fwd x).H = x.H ∧ (SimpleGate.fwd x).W = x.W ∧
    ∀ b < x.B, ∀ c < k, ∀ h < x.H, ∀ w < x.W,
      (SimpleGate.fwd x).data b c h w =
        x.data b c h w * x.data b (k + c) h w := by
  have hfst : (x.C + 1) / 2 = k := by omega
  have hsnd : x.C - (x.C + 1) / 2 = k := by omega
  refine ⟨?_, ?_, ?_, ?_, ?_⟩
  · simp [SimpleGate.fwd]
  · show Tensor4.bdim (chunk2Fst x).C (chunk2Snd x).C = k
    rw [chunk2Fst_C, chunk2Snd_C, hsnd, hfst, Tensor4.bdim_self]
  · simp [SimpleGate.fwd]
  · simp [SimpleGate.fwd]
  · intro b hb c hc h hh w hw
    show (chunk2Fst x).data (Tensor4.bidx (chunk2Fst x).B b)
          (Tensor4.bidx (chunk2Fst x).C c) (Tensor4.bidx (chunk2Fst x).H h)
          (Tensor4.bidx (chunk2Fst x).W w) *
        (chunk2Snd x).data (Tensor4.bidx (chunk2Snd x).B b)
          (Tensor4.bidx (chunk2Snd x).C c) (Tensor4.bidx (chunk2Snd x).H h)
          (Tensor4.bidx (chunk2Snd x).W w) =
      x.data b c h w * x.data b (k + c) h w
    rw [Tensor4.bidx_eq_of_lt (show b < (chunk2Fst x).B from hb),
      Tensor4.bidx_eq_of_lt (show c < (chunk2Fst x).C by simp [hfst]; omega),
      Tensor4.bidx_eq_of_lt (show h < (chunk2Fst x).H from hh),
      Tensor4.bidx_eq_of_lt (show w < (chunk2Fst x).W from hw),
      Tensor4.bidx_eq_of_lt (show b < (chunk2Snd x).B from hb),
      Tensor4.bidx_eq_of_lt (show c < (chunk2Snd x).C by simp [hsnd]; omega),
      Tensor4.bidx_eq_of_lt (show h < (chunk2Snd x).H from hh),
      Tensor4.bidx_eq_of_lt (show w < (chunk2Snd x).W from hw)]
    show x.data b c h w * x.data b ((x.C + 1) / 2 + c) h w = _
    rw [hfst]

/-- Witness for C6 at a concrete input: on the 1×4×3×3 sample tensor, the
gate's entry at (0, 1, 2, 1) is the product of the input entries at
channels 1 and 3. -/
theorem simpleGate_split_mul_witness :
    (SimpleGate.fwd t4x3).data 0 1 2 1 =
      t4x3.data 0 1 2 1 * t4x3.data 0 (2 + 1) 2 1 :=
  (simpleGate_split_mul t4x3 2 rfl).2.2.2.2 0 (by decide) 1 (by decide)
    2 (by decide) 1 (by decide)

/-! ### C5: CustomPixelShuffle(2) is the standard pixel shuffle -/

/-- C5: on an input whose channel count is divisible by 4,
`CustomPixelShuffle` with upscale factor 2 computes exactly the standard
pixel-shuffle rearrangement (what `nn.PixelShuffle(2)` would compute): the
output has shape `(b, c/4, 2h, 2w)`, it coincides with the
specification-side rearrangement `pixelShuffleSpec2` on every valid index,
and `out[b, q, 2i+di, 2j+dj] = in[b, 4q + 2di + dj, i, j]` for
`di, dj ∈ {0, 1}`. -/
theorem customPixelShuffle_eq_spec (x : Tensor4) (h4 : 4 ∣ x.C) :
    (CustomPixelShuffle.fwd 2 x).B = x.B ∧
    (CustomPixelShuffle.fwd 2 x).C = x.C / 4 ∧
    (CustomPixelShuffle.fwd 2 x).H = 2 * x.H ∧
    (CustomPixelShuffle.fwd 2 x).W = 2 * x.W ∧
    Tensor4.Eqv (CustomPixelShuffle.fwd 2 x) (pixelShuffleSpec2 x) ∧
    ∀ b q i j di dj, di < 2 → dj < 2 →
      (CustomPixelShuffle.fwd 2 x).data b q (2 * i + di) (2 * j + dj) =
        x.data b (4 * q + 2 * di + dj) i j := by
  have hC : x.C / 2 ^ 2 = x.C / 4 := by norm_num
  have hdata : ∀ b q u v,
      (CustomPixelShuffle.fwd 2 x).data b q u v =
        x.data b (q * 4 + u % 2 * 2 + v % 2) (u / 2) (v / 2) :=
    fun _ _ _ _ => rfl
  refine ⟨rfl, hC, Nat.mul_comm x.H 2, Nat.mul_comm x.W 2, ?_, ?_⟩
  · refine ⟨rfl, hC, Nat.mul_comm x.H 2, Nat.mul_comm x.W 2, ?_⟩
    intro b _ q _ u _ v _
    rw [hdata]
    have e1 : q * 4 + u % 2 * 2 + v % 2 = 4 * q + 2 * (u % 2) + v % 2 := by
      ring
    rw [e1]
    rfl
  · intro b q i j di dj hdi hdj
    rw [hdata]
    have e1 : q * 4 + (2 * i + di) % 2 * 2 + (2 * j + dj) % 2 =
        4 * q + 2 * di + dj := by omega
    have e2 : (2 * i + di) / 2 = i := by omega
    have e3 : (2 * j + dj) / 2 = j := by omega
    rw [e1, e2, e3]

/-- Witness for C5 at a concrete input: on the 1×4×3×3 sample tensor the
shuffled entry at (0, 0, 1, 2) reads input channel `2*1 + 0 = 2` at spatial
position (0, 1). -/
theorem customPixelShuffle_eq_spec_witness :
    (CustomPixelShuffle.fwd 2 t4x3).data 0 0 (2 * 0 + 1) (2 * 1 + 0) =
      t4x3.data 0 (4 * 0 + 2 * 1 + 0) 0 1 :=
  (customPixelShuffle_eq_spec t4x3 (by decide)).2.2.2.2.2 0 0 0 1 1 0
    (by decide) (by decide)

/-! ### C7: GlobalContextExtractor applies its convolutions sequentially -/


lemma GCE_fwd_length (ls : List DSConvLayer) (x : Tensor4) :
    (GCE.fwd ls x).length = ls.length := by
  induction ls generalizing x with
  | nil => rfl
  | cons l t ih => simp [GCE.fwd, ih]

lemma GCE_fwd_head (ls : List DSConvLayer) (x : Tensor4)
    (h0 : 0 < ls.length) :
    (GCE.fwd ls x).getD 0 zero4 = geluT ((ls.getD 0 zeroDS).fwd x) := by
  cases ls with
  | nil => simp at h0
  | cons l t => rfl

lemma GCE_fwd_step (ls : List DSConvLayer) (x : Tensor4) (i : ℕ)
    (hi : i + 1 < ls.length) :
    (GCE.fwd ls x).getD (i + 1) zero4 =
      geluT ((ls.getD (i + 1) zeroDS).fwd ((GCE.fwd ls x).getD i zero4)) := by
  induction ls generalizing x i with
  | nil => simp at hi
  | cons l t ih =>
    cases i with
    | zero =>
      have ht : 0 < t.length := by
        simpa using hi
      show (GCE.fwd t (geluT (l.fwd x))).getD 0 zero4 = _
      rw [GCE_fwd_head t (geluT (l.fwd x)) ht]
      rfl
    | succ j =>
      have hj : j + 1 < t.length := by
        simpa using hi
      show (GCE.fwd t (geluT (l.fwd x))).getD (j + 1) zero4 = _
      rw [ih (geluT (l.fwd x)) j hj]
      rfl

/-- C7: `GlobalContextExtractor.forward` returns one entry per configured
(kernel_size, stride) pair — the module list built by its `__init__` has
exactly `kernel_sizes.zip(strides).length` convs and the output list has the
same length — where entry 0 is `gelu(conv_0(x))` (tanh-approximate gelu) and
every later entry `i+1` is `gelu(conv_{i+1}(entry_i))`: each convolution
consumes the previous activated output, not the original input. -/
theorem gce_sequential (c padding : ℕ) (useBias : Bool)
    (kernelStrides : List (ℕ × ℕ)) (θ : ℕ → ConvRaw × ConvRaw)
    (x : Tensor4) :
    (GCE.fwd (mkGCE c kernelStrides padding useBias θ) x).length =
        kernelStrides.length ∧
    (0 < kernelStrides.length →
      (GCE.fwd (mkGCE c kernelStrides padding useBias θ) x).getD 0 zero4 =
        geluT (((mkGCE c kernelStrides padding useBias θ).getD 0
          zeroDS).fwd x)) ∧
    ∀ i, i + 1 < kernelStrides.length →
      (GCE.fwd (mkGCE c kernelStrides padding useBias θ) x).getD (i + 1)
          zero4 =
        geluT (((mkGCE c kernelStrides padding useBias θ).getD (i + 1)
          zeroDS).fwd
            ((GCE.fwd (mkGCE c kernelStrides padding useBias θ) x).getD i
              zero4)) := by
  have hlen : (mkGCE c kernelStrides padding useBias θ).length =
      kernelStrides.length := by
    simp [mkGCE]
  refine ⟨?_, ?_, ?_⟩
  · rw [GCE_fwd_length, hlen]
  · intro h0
    exact GCE_fwd_head _ x (by rw [hlen]; exact h0)
  · intro i hi
    exact GCE_fwd_step _ x i (by rw [hlen]; exact hi)

/-- Witness for C7 at a concrete input: the two-conv GCE configuration of
the third encoder stage, applied to the 1×4×3×3 sample tensor, has two
outputs and its second output is the gelu of the second conv applied to the
first output. -/
theorem gce_sequential_witness :
    (GCE.fwd (mkGCE 4 [(3, 2), (3, 3)] 0 false
        (fun _ => (⟨fun _ _ _ _ => 0, fun _ => 0⟩,
          ⟨fun _ _ _ _ => 0, fun _ => 0⟩))) t4x3).length = 2 ∧
    (GCE.fwd (mkGCE 4 [(3, 2), (3, 3)] 0 false
        (fun _ => (⟨fun _ _ _ _ => 0, fun _ => 0⟩,
          ⟨fun _ _ _ _ => 0, fun _ => 0⟩))) t4x3).getD 1 zero4 =
      geluT (((mkGCE 4 [(3, 2), (3, 3)] 0 false
        (fun _ => (⟨fun _ _ _ _ => 0, fun _ => 0⟩,
          ⟨fun _ _ _ _ => 0, fun _ => 0⟩))).getD 1 zeroDS).fwd
        ((GCE.fwd (mkGCE 4 [(3, 2), (3, 3)] 0 false
          (fun _ => (⟨fun _ _ _ _ => 0, fun _ => 0⟩,
            ⟨fun _ _ _ _ => 0, fun _ => 0⟩))) t4x3).getD 0 zero4)) :=
  ⟨(gce_sequential 4 0 false [(3, 2), (3, 3)] _ t4x3).1,
    (gce_sequential 4 0 false [(3, 2), (3, 3)] _ t4x3).2.2 0 (by decide)⟩

/-! ### C3: the LayerNorm forward formula -/


lemma bcSub_mu_data (x : Tensor4) {n i h w : ℕ} (hn : n < x.B)
    (hi : i < x.C) (hh : h < x.H) (hw : w < x.W) :
    (Tensor4.bcSub x (LN.mu x)).data n i h w =
      x.data n i h w - chMeanAt x n h w := by
  show x.data (Tensor4.bidx x.B n) (Tensor4.bidx x.C i) (Tensor4.bidx x.H h)
        (Tensor4.bidx x.W w) -
      (LN.mu x).data (Tensor4.bidx x.B n) (Tensor4.bidx 1 i)
        (Tensor4.bidx x.H h) (Tensor4.bidx x.W w) = _
  rw [Tensor4.bidx_eq_of_lt hn, Tensor4.bidx_eq_of_lt hi,
    Tensor4.bidx_eq_of_lt hh, Tensor4.bidx_eq_of_lt hw, Tensor4.bidx_one]
  rfl

lemma LN_var_data (x : Tensor4) {n h w : ℕ} (c : ℕ) (hn : n < x.B)
    (hh : h < x.H) (hw : w < x.W) :
    (LN.var x).data n c h w = chVarAt x n h w := by
  show (∑ i ∈ range (pow2T (Tensor4.bcSub x (LN.mu x))).C,
      (pow2T (Tensor4.bcSub x (LN.mu x))).data n i h w) /
        (((pow2T (Tensor4.bcSub x (LN.mu x))).C : ℕ) : ℝ) = _
  have hC : (pow2T (Tensor4.bcSub x (LN.mu x))).C = x.C := by simp [LN.mu]
  rw [hC]
  unfold chVarAt
  congr 1
  refine Finset.sum_congr rfl fun i hi => ?_
  show ((Tensor4.bcSub x (LN.mu x)).data n i h w) ^ 2 = _
  rw [bcSub_mu_data x hn (mem_range.mp hi) hh hw]

lemma LN_yhat_data (x : Tensor4) (eps : ℝ) {n c h w : ℕ} (hn : n < x.B)
    (hc : c < x.C) (hh : h < x.H) (hw : w < x.W) :
    (LN.yhat x eps).data n c h w =
      (x.data n c h w - chMeanAt x n h w) /
        Real.sqrt (chVarAt x n h w + eps) := by
  have hsub : (Tensor4.bcSub x (LN.mu x)).B = x.B ∧
      (Tensor4.bcSub x (LN.mu x)).C = x.C ∧
      (Tensor4.bcSub x (LN.mu x)).H = x.H ∧
      (Tensor4.bcSub x (LN.mu x)).W = x.W := by
    refine ⟨?_, ?_, ?_, ?_⟩ <;> simp [LN.mu]
  show (Tensor4.bcSub x (LN.mu x)).data
        (Tensor4.bidx (Tensor4.bcSub x (LN.mu x)).B n)
        (Tensor4.bidx (Tensor4.bcSub x (LN.mu x)).C c)
        (Tensor4.bidx (Tensor4.bcSub x (LN.mu x)).H h)
        (Tensor4.bidx (Tensor4.bcSub x (LN.mu x)).W w) /
      (sqrtT (addScalarT (LN.var x) eps)).data
        (Tensor4.bidx (sqrtT (addScalarT (LN.var x) eps)).B n)
        (Tensor4.bidx (sqrtT (addScalarT (LN.var x) eps)).C c)
        (Tensor4.bidx (sqrtT (addScalarT (LN.var x) eps)).H h)
        (Tensor4.bidx (sqrtT (addScalarT (LN.var x) eps)).W w) = _
  rw [hsub.1, hsub.2.1, hsub.2.2.1, hsub.2.2.2]
  have hvB : (sqrtT (addScalarT (LN.var x) eps)).B = x.B := by
    simp [LN.var, LN.mu]
  have hvC : (sqrtT (addScalarT (LN.var x) eps)).C = 1 := by
    simp [LN.var, LN.mu]
  have hvH : (sqrtT (addScalarT (LN.var x) eps)).H = x.H := by
    simp [LN.var, LN.mu]
  have hvW : (sqrtT (addScalarT (LN.var x) eps)).W = x.W := by
    simp [LN.var, LN.mu]
  rw [hvB, hvC, hvH, hvW, Tensor4.bidx_eq_of_lt hn,
    Tensor4.bidx_eq_of_lt hc, Tensor4.bidx_eq_of_lt hh,
    Tensor4.bidx_eq_of_lt hw, Tensor4.bidx_one,
    bcSub_mu_data x hn hc hh hw]
  show _ / Real.sqrt ((LN.var x).data n 0 h w + eps) = _
  rw [LN_var_data x 0 hn hh hw]

lemma LN_fwd_data (x : Tensor4) (weight bias : ℕ → ℝ)
    (eps : ℝ) (n c h w : ℕ) (hn : n < x.B) (hc : c < x.C) (hh : h < x.H)
    (hw : w < x.W) :
    (LN.fwd x weight bias eps).data n c h w =
      weight c * ((x.data n c h w - chMeanAt x n h w) /
        Real.sqrt (chVarAt x n h w + eps)) + bias c := by
  have hmB : (Tensor4.bcMul (viewC weight x.C) (LN.yhat x eps)).B = x.B := by
    simp [LN.yhat, LN.var, LN.mu]
  have hmC : (Tensor4.bcMul (viewC weight x.C) (LN.yhat x eps)).C = x.C := by
    simp [LN.yhat, LN.var, LN.mu]
  have hmH : (Tensor4.bcMul (viewC weight x.C) (LN.yhat x eps)).H = x.H := by
    simp [LN.yhat, LN.var, LN.mu]
  have hmW : (Tensor4.bcMul (viewC weight x.C) (LN.yhat x eps)).W = x.W := by
    simp [LN.yhat, LN.var, LN.mu]
  have hyB : (LN.yhat x eps).B = x.B := by simp [LN.yhat, LN.var, LN.mu]
  have hyC : (LN.yhat x eps).C = x.C := by simp [LN.yhat, LN.var, LN.mu]
  have hyH : (LN.yhat x eps).H = x.H := by simp [LN.yhat, LN.var, LN.mu]
  have hyW : (LN.yhat x eps).W = x.W := by simp [LN.yhat, LN.var, LN.mu]
  show (Tensor4.bcMul (viewC weight x.C) (LN.yhat x eps)).data
        (Tensor4.bidx (Tensor4.bcMul (viewC weight x.C) (LN.yhat x eps)).B n)
        (Tensor4.bidx (Tensor4.bcMul (viewC weight x.C) (LN.yhat x eps)).C c)
        (Tensor4.bidx (Tensor4.bcMul (viewC weight x.C) (LN.yhat x eps)).H h)
        (Tensor4.bidx (Tensor4.bcMul (viewC weight x.C)
          (LN.yhat x eps)).W w) +
      (viewC bias x.C).data (Tensor4.bidx 1 n) (Tensor4.bidx x.C c)
        (Tensor4.bidx 1 h) (Tensor4.bidx 1 w) = _
  rw [hmB, hmC, hmH, hmW, Tensor4.bidx_eq_of_lt hn,
    Tensor4.bidx_eq_of_lt hc, Tensor4.bidx_eq_of_lt hh,
    Tensor4.bidx_eq_of_lt hw]
  show (viewC weight x.C).data (Tensor4.bidx 1 n) (Tensor4.bidx x.C c)
        (Tensor4.bidx 1 h) (Tensor4.bidx 1 w) *
      (LN.yhat x eps).data (Tensor4.bidx (LN.yhat x eps).B n)
        (Tensor4.bidx (LN.yhat x eps).C c) (Tensor4.bidx (LN.yhat x eps).H h)
        (Tensor4.bidx (LN.yhat x eps).W w) +
      (viewC bias x.C).data (Tensor4.bidx 1 n) c
        (Tensor4.bidx 1 h) (Tensor4.bidx 1 w) = _
  rw [hyB, hyC, hyH, hyW, Tensor4.bidx_eq_of_lt hn,
    Tensor4.bidx_eq_of_lt hc, Tensor4.bidx_eq_of_lt hh,
    Tensor4.bidx_eq_of_lt hw, Tensor4.bidx_one,
    LN_yhat_data x eps hn hc hh hw]
  rfl

/-- C3: `LayerNormFunction.forward` returns
`weight[c] * (x[n,c,h,w] - mu[n,h,w]) / sqrt(var[n,h,w] + eps) + bias[c]`,
with `mu` the mean and `var` the biased (population) variance of the channel
column `x[n,·,h,w]`. -/
theorem layerNorm_forward_formula (x : Tensor4) (weight bias : ℕ → ℝ)
    (eps : ℝ) (n c h w : ℕ) (hn : n < x.B) (hc : c < x.C) (hh : h < x.H)
    (hw : w < x.W) :
    (LN.fwd x weight bias eps).data n c h w =
      weight c * ((x.data n c h w - chMeanAt x n h w) /
        Real.sqrt (chVarAt x n h w + eps)) + bias c :=
  LN_fwd_data x weight bias eps n c h w hn hc hh hw

/-! ### Shape lemmas for the blocks and the network -/

lemma sg_dims (x : Tensor4) (k : ℕ) (hC : x.C = 2 * k) :
    (SimpleGate.fwd x).B = x.B ∧ (SimpleGate.fwd x).C = k ∧
    (SimpleGate.fwd x).H = x.H ∧ (SimpleGate.fwd x).W = x.W := by
  have hfst : (x.C + 1) / 2 = k := by omega
  have hsnd : x.C - (x.C + 1) / 2 = k := by omega
  refine ⟨by simp [SimpleGate.fwd], ?_, by simp [SimpleGate.fwd],
    by simp [SimpleGate.fwd]⟩
  show Tensor4.bdim (chunk2Fst x).C (chunk2Snd x).C = k
  rw [chunk2Fst_C, chunk2Snd_C, hsnd, hfst, Tensor4.bdim_self]

lemma GCE_outs_dims (cc : ℕ) (ls : List DSConvLayer)
    (hls : ∀ l ∈ ls, l.pointwise.Cout = cc) (x : Tensor4) :
    ∀ t ∈ GCE.fwd ls x, t.B = x.B ∧ t.C = cc := by
  induction ls generalizing x with
  | nil => simp [GCE.fwd]
  | cons l tl ih =>
    intro t ht
    rcases List.mem_cons.mp ht with h | h
    · subst h
      refine ⟨rfl, ?_⟩
      show l.pointwise.Cout = cc
      exact hls l (List.mem_cons_self l tl)
    · have htl := ih (fun m hm => hls m (List.mem_cons_of_mem l hm))
        (geluT (l.fwd x)) t h
      exact ⟨htl.1, htl.2⟩

lemma mkGCE_pointwise_Cout (c : ℕ) (ks : List (ℕ × ℕ)) (p : ℕ) (bias : Bool)
    (θ : ℕ → ConvRaw × ConvRaw) :
    ∀ l ∈ mkGCE c ks p bias θ, l.pointwise.Cout = c := by
  intro l hl
  simp only [mkGCE, List.mem_map] at hl
  obtain ⟨i, _, rfl⟩ := hl
  rfl

lemma mkCGBlock_gce_Cout (c g : ℕ) (θ : CGBlockRaw) :
    ∀ l ∈ (mkCGBlock c g θ).gce, l.pointwise.Cout = c := by
  show ∀ l ∈ (if g = 3 then mkGCE c [(2, 2), (4, 4), (4, 4)] 0 false θ.gce
    else mkGCE c [(3, 2), (3, 3)] 0 false θ.gce), l.pointwise.Cout = c
  split
  · exact mkGCE_pointwise_Cout c _ 0 false θ.gce
  · exact mkGCE_pointwise_Cout c _ 0 false θ.gce

lemma mkCGBlock_gce_length (c g : ℕ) (θ : CGBlockRaw) :
    (mkCGBlock c g θ).gce.length = if g = 3 then 3 else 2 := by
  show (if g = 3 then mkGCE c [(2, 2), (4, 4), (4, 4)] 0 false θ.gce
    else mkGCE c [(3, 2), (3, 3)] 0 false θ.gce).length = _
  split <;> simp [mkGCE]

lemma mkCGBlock_stage1_dims (c g : ℕ) (θ : CGBlockRaw) (inp : Tensor4)
    (hH : 1 ≤ inp.H) (hW : 1 ≤ inp.W) :
    ((mkCGBlock c g θ).stage1 inp).B = inp.B ∧
    ((mkCGBlock c g θ).stage1 inp).C = 2 * c ∧
    ((mkCGBlock c g θ).stage1 inp).H = inp.H ∧
    ((mkCGBlock c g θ).stage1 inp).W = inp.W := by
  unfold CGBlockLayer.stage1
  refine ⟨by simp [mkCGBlock], by simp [mkCGBlock], ?_, ?_⟩ <;>
    · simp [mkCGBlock]
      omega

lemma mkCGBlock_gceOuts_getD_dims (c g : ℕ) (θ : CGBlockRaw) (inp : Tensor4)
    (i : ℕ) (hi : i < (mkCGBlock c g θ).gce.length) :
    (((mkCGBlock c g θ).gceOuts inp).getD i zero4).B = inp.B ∧
    (((mkCGBlock c g θ).gceOuts inp).getD i zero4).C = c := by
  unfold CGBlockLayer.gceOuts
  set X := Tensor4.bcAdd (chunk2Fst ((mkCGBlock c g θ).stage1 inp))
    (chunk2Snd ((mkCGBlock c g θ).stage1 inp)) with hX
  have hilen : i < (GCE.fwd (mkCGBlock c g θ).gce X).length := by
    rw [GCE_fwd_length]
    exact hi
  have hmem : (GCE.fwd (mkCGBlock c g θ).gce X).getD i zero4 ∈
      GCE.fwd (mkCGBlock c g θ).gce X := by
    rw [List.getD_eq_getElem _ _ hilen]
    exact List.getElem_mem hilen
  have hd := GCE_outs_dims c _ (mkCGBlock_gce_Cout c g θ) X _ hmem
  refine ⟨?_, hd.2⟩
  rw [hd.1]
  show Tensor4.bdim ((mkCGBlock c g θ).stage1 inp).B
    ((mkCGBlock c g θ).stage1 inp).B = _
  rw [Tensor4.bdim_self]
  simp [CGBlockLayer.stage1, mkCGBlock]

lemma mkCGBlock_fused_dims (c g : ℕ) (θ : CGBlockRaw) (inp : Tensor4)
    (hH : 1 ≤ inp.H) (hW : 1 ≤ inp.W) :
    ((mkCGBlock c g θ).fused inp).B = inp.B ∧
    ((mkCGBlock c g θ).fused inp).C = (if g = 3 then 5 * c else 4 * c) ∧
    ((mkCGBlock c g θ).fused inp).H = inp.H ∧
    ((mkCGBlock c g θ).fused inp).W = inp.W := by
  have hs := mkCGBlock_stage1_dims c g θ inp hH hW
  have hlen := mkCGBlock_gce_length c g θ
  have hgflag : (mkCGBlock c g θ).gceConv = g := rfl
  unfold CGBlockLayer.fused
  rw [hgflag]
  by_cases hg : g = 3
  · rw [if_pos hg, if_pos hg]
    have h0 := mkCGBlock_gceOuts_getD_dims c g θ inp 0
      (by rw [hlen, if_pos hg]; omega)
    have h1 := mkCGBlock_gceOuts_getD_dims c g θ inp 1
      (by rw [hlen, if_pos hg]; omega)
    have h2 := mkCGBlock_gceOuts_getD_dims c g θ inp 2
      (by rw [hlen, if_pos hg]; omega)
    refine ⟨by simp [hs.1], ?_, by simp [hs.2.2.1], by simp [hs.2.2.2]⟩
    show ((mkCGBlock c g θ).stage1 inp).C +
        (((mkCGBlock c g θ).gceOuts inp).getD 0 zero4).C +
        (((mkCGBlock c g θ).gceOuts inp).getD 1 zero4).C +
        (((mkCGBlock c g θ).gceOuts inp).getD 2 zero4).C = 5 * c
    rw [hs.2.1, h0.2, h1.2, h2.2]
    ring
  · rw [if_neg hg, if_neg hg]
    have h0 := mkCGBlock_gceOuts_getD_dims c g θ inp 0
      (by rw [hlen, if_neg hg]; omega)
    have h1 := mkCGBlock_gceOuts_getD_dims c g θ inp 1
      (by rw [hlen, if_neg hg]; omega)
    refine ⟨by simp [hs.1], ?_, by simp [hs.2.2.1], by simp [hs.2.2.2]⟩
    show ((mkCGBlock c g θ).stage1 inp).C +
        (((mkCGBlock c g θ).gceOuts inp).getD 0 zero4).C +
        (((mkCGBlock c g θ).gceOuts inp).getD 1 zero4).C = 4 * c
    rw [hs.2.1, h0.2, h1.2]
    ring

lemma mkCGBlock_projected_dims (c g : ℕ) (θ : CGBlockRaw) (inp : Tensor4)
    (hH : 1 ≤ inp.H) (hW : 1 ≤ inp.W) :
    ((mkCGBlock c g θ).projected inp).B = inp.B ∧
    ((mkCGBlock c g θ).projected inp).C = c ∧
    ((mkCGBlock c g θ).projected inp).H = inp.H ∧
    ((mkCGBlock c g θ).projected inp).W = inp.W := by
  have hf := mkCGBlock_fused_dims c g θ inp hH hW
  have ep1 : (mkCGBlock c g θ).scaConv.pad = 0 := rfl
  have ek1 : (mkCGBlock c g θ).scaConv.K = 1 := rfl
  have es1 : (mkCGBlock c g θ).scaConv.stride = 1 := rfl
  have ep2 : (mkCGBlock c g θ).projectOut.pad = 0 := rfl
  have ek2 : (mkCGBlock c g θ).projectOut.K = 1 := rfl
  have es2 : (mkCGBlock c g θ).projectOut.stride = 1 := rfl
  have e1 : (1 + 2 * 0 - 1) / 1 + 1 = 1 := by norm_num
  unfold CGBlockLayer.projected
  refine ⟨?_, ?_, ?_, ?_⟩
  · rw [conv_fwd_B, Tensor4.bcMul_B, conv_fwd_B, pool_B, hf.1,
      Tensor4.bdim_self]
  · rw [conv_fwd_C]
    rfl
  · rw [conv_fwd_H, Tensor4.bcMul_H, conv_fwd_H, pool_H, hf.2.2.1,
      ep1, ek1, es1, ep2, ek2, es2, e1, Tensor4.bdim_one_left]
    omega
  · rw [conv_fwd_W, Tensor4.bcMul_W, conv_fwd_W, pool_W, hf.2.2.2,
      ep1, ek1, es1, ep2, ek2, es2, e1, Tensor4.bdim_one_left]
    omega

lemma mkCGBlock_resid1_dims (c g : ℕ) (θ : CGBlockRaw) (inp : Tensor4)
    (hC : inp.C = c) (hH : 1 ≤ inp.H) (hW : 1 ≤ inp.W) :
    ((mkCGBlock c g θ).resid1 inp).B = inp.B ∧
    ((mkCGBlock c g θ).resid1 inp).C = inp.C ∧
    ((mkCGBlock c g θ).resid1 inp).H = inp.H ∧
    ((mkCGBlock c g θ).resid1 inp).W = inp.W := by
  have hp := mkCGBlock_projected_dims c g θ inp hH hW
  have hc0 : (mkCGBlock c g θ).c = c := rfl
  unfold CGBlockLayer.resid1
  refine ⟨?_, ?_, ?_, ?_⟩
  · rw [Tensor4.bcAdd_B, Tensor4.bcMul_B, viewC_B, Tensor4.bdim_one_right,
      hp.1, Tensor4.bdim_self]
  · rw [Tensor4.bcAdd_C, Tensor4.bcMul_C, viewC_C, hp.2.1, hc0,
      Tensor4.bdim_self, hC, Tensor4.bdim_self]
  · rw [Tensor4.bcAdd_H, Tensor4.bcMul_H, viewC_H, Tensor4.bdim_one_right,
      hp.2.2.1, Tensor4.bdim_self]
  · rw [Tensor4.bcAdd_W, Tensor4.bcMul_W, viewC_W, Tensor4.bdim_one_right,
      hp.2.2.2, Tensor4.bdim_self]

lemma ffn_dims (k m : ℕ) (c4 c5 : Conv2dLayer) (y : Tensor4)
    (h4 : c4.Cout = 2 * k ∧ c4.K = 1 ∧ c4.stride = 1 ∧ c4.pad = 0)
    (h5 : c5.Cout = m ∧ c5.K = 1 ∧ c5.stride = 1 ∧ c5.pad = 0)
    (nw nb : ℕ → ℝ) (eps : ℝ) (hH : 1 ≤ y.H) (hW : 1 ≤ y.W) :
    (c5.fwd (SimpleGate.fwd (c4.fwd (LN.fwd y nw nb eps)))).B = y.B ∧
    (c5.fwd (SimpleGate.fwd (c4.fwd (LN.fwd y nw nb eps)))).C = m ∧
    (c5.fwd (SimpleGate.fwd (c4.fwd (LN.fwd y nw nb eps)))).H = y.H ∧
    (c5.fwd (SimpleGate.fwd (c4.fwd (LN.fwd y nw nb eps)))).W = y.W := by
  have h4H : (c4.fwd (LN.fwd y nw nb eps)).H = y.H := by
    rw [conv_fwd_H, LN_fwd_H, h4.2.1, h4.2.2.1, h4.2.2.2]
    omega
  have h4W : (c4.fwd (LN.fwd y nw nb eps)).W = y.W := by
    rw [conv_fwd_W, LN_fwd_W, h4.2.1, h4.2.2.1, h4.2.2.2]
    omega
  have hsg := sg_dims (c4.fwd (LN.fwd y nw nb eps)) k
    (by rw [conv_fwd_C, h4.1])
  refine ⟨?_, ?_, ?_, ?_⟩
  · rw [conv_fwd_B, hsg.1, conv_fwd_B, LN_fwd_B]
  · rw [conv_fwd_C, h5.1]
  · rw [conv_fwd_H, hsg.2.2.1, h4H, h5.2.1, h5.2.2.1, h5.2.2.2]
    omega
  · rw [conv_fwd_W, hsg.2.2.2, h4W, h5.2.1, h5.2.2.1, h5.2.2.2]
    omega

lemma mkCGBlock_fwd_dims (c g : ℕ) (θ : CGBlockRaw) (inp : Tensor4)
    (hC : inp.C = c) (hH : 1 ≤ inp.H) (hW : 1 ≤ inp.W) :
    ((mkCGBlock c g θ).fwd inp).B = inp.B ∧
    ((mkCGBlock c g θ).fwd inp).C = inp.C ∧
    ((mkCGBlock c g θ).fwd inp).H = inp.H ∧
    ((mkCGBlock c g θ).fwd inp).W = inp.W := by
  have hr := mkCGBlock_resid1_dims c g θ inp hC hH hW
  have hffn := ffn_dims c c (mkCGBlock c g θ).conv4 (mkCGBlock c g θ).conv5
    ((mkCGBlock c g θ).resid1 inp) ⟨rfl, rfl, rfl, rfl⟩ ⟨rfl, rfl, rfl, rfl⟩
    (mkCGBlock c g θ).n2w (mkCGBlock c g θ).n2b (mkCGBlock c g θ).eps
    (by rw [hr.2.2.1]; exact hH) (by rw [hr.2.2.2]; exact hW)
  have hc0 : (mkCGBlock c g θ).c = c := rfl
  unfold CGBlockLayer.fwd
  refine ⟨?_, ?_, ?_, ?_⟩
  · rw [Tensor4.bcAdd_B, Tensor4.bcMul_B, viewC_B, Tensor4.bdim_one_right,
      hffn.1, hr.1, Tensor4.bdim_self]
  · rw [Tensor4.bcAdd_C, Tensor4.bcMul_C, viewC_C, hffn.2.1, hc0,
      Tensor4.bdim_self, hr.2.1, hC, Tensor4.bdim_self]
  · rw [Tensor4.bcAdd_H, Tensor4.bcMul_H, viewC_H, Tensor4.bdim_one_right,
      hffn.2.2.1, hr.2.2.1, Tensor4.bdim_self]
  · rw [Tensor4.bcAdd_W, Tensor4.bcMul_W, viewC_W, Tensor4.bdim_one_right,
      hffn.2.2.2, hr.2.2.2, Tensor4.bdim_self]

lemma mkNAF_attnOut_dims (c : ℕ) (θ : NAFRaw) (inp : Tensor4)
    (hH : 1 ≤ inp.H) (hW : 1 ≤ inp.W) :
    ((mkNAF c θ).attnOut inp).B = inp.B ∧
    ((mkNAF c θ).attnOut inp).C = c ∧
    ((mkNAF c θ).attnOut inp).H = inp.H ∧
    ((mkNAF c θ).attnOut inp).W = inp.W := by
  have h12H : ((mkNAF c θ).conv2.fwd ((mkNAF c θ).conv1.fwd
      (LN.fwd inp (mkNAF c θ).n1w (mkNAF c θ).n1b (mkNAF c θ).eps))).H =
      inp.H := by
    rw [conv_fwd_H, conv_fwd_H, LN_fwd_H]
    show ((inp.H + 2 * 0 - 1) / 1 + 1 + 2 * 1 - 3) / 1 + 1 = inp.H
    omega
  have h12W : ((mkNAF c θ).conv2.fwd ((mkNAF c θ).conv1.fwd
      (LN.fwd inp (mkNAF c θ).n1w (mkNAF c θ).n1b (mkNAF c θ).eps))).W =
      inp.W := by
    rw [conv_fwd_W, conv_fwd_W, LN_fwd_W]
    show ((inp.W + 2 * 0 - 1) / 1 + 1 + 2 * 1 - 3) / 1 + 1 = inp.W
    omega
  have hsg := sg_dims ((mkNAF c θ).conv2.fwd ((mkNAF c θ).conv1.fwd
    (LN.fwd inp (mkNAF c θ).n1w (mkNAF c θ).n1b (mkNAF c θ).eps))) c
    (by rw [conv_fwd_C]; rfl)
  have e1 : (1 + 2 * 0 - 1) / 1 + 1 = 1 := by norm_num
  unfold NAFLayer.attnOut
  refine ⟨?_, ?_, ?_, ?_⟩
  · rw [conv_fwd_B, Tensor4.bcMul_B, conv_fwd_B, pool_B, hsg.1,
      Tensor4.bdim_self, conv_fwd_B, conv_fwd_B, LN_fwd_B]
  · rw [conv_fwd_C]
    rfl
  · rw [conv_fwd_H, Tensor4.bcMul_H, conv_fwd_H, pool_H]
    show (Tensor4.bdim (SimpleGate.fwd _).H ((1 + 2 * 0 - 1) / 1 + 1) +
      2 * 0 - 1) / 1 + 1 = inp.H
    rw [e1, Tensor4.bdim_one_right, hsg.2.2.1, h12H]
    omega
  · rw [conv_fwd_W, Tensor4.bcMul_W, conv_fwd_W, pool_W]
    show (Tensor4.bdim (SimpleGate.fwd _).W ((1 + 2 * 0 - 1) / 1 + 1) +
      2 * 0 - 1) / 1 + 1 = inp.W
    rw [e1, Tensor4.bdim_one_right, hsg.2.2.2, h12W]
    omega

lemma mkNAF_resid1_dims (c : ℕ) (θ : NAFRaw) (inp : Tensor4)
    (hC : inp.C = c) (hH : 1 ≤ inp.H) (hW : 1 ≤ inp.W) :
    ((mkNAF c θ).resid1 inp).B = inp.B ∧
    ((mkNAF c θ).resid1 inp).C = inp.C ∧
    ((mkNAF c θ).resid1 inp).H = inp.H ∧
    ((mkNAF c θ).resid1 inp).W = inp.W := by
  have hp := mkNAF_attnOut_dims c θ inp hH hW
  have hc0 : (mkNAF c θ).c = c := rfl
  unfold NAFLayer.resid1
  refine ⟨?_, ?_, ?_, ?_⟩
  · rw [Tensor4.bcAdd_B, Tensor4.bcMul_B, viewC_B, Tensor4.bdim_one_right,
      hp.1, Tensor4.bdim_self]
  · rw [Tensor4.bcAdd_C, Tensor4.bcMul_C, viewC_C, hp.2.1, hc0,
      Tensor4.bdim_self, hC, Tensor4.bdim_self]
  · rw [Tensor4.bcAdd_H, Tensor4.bcMul_H, viewC_H, Tensor4.bdim_one_right,
      hp.2.2.1, Tensor4.bdim_self]
  · rw [Tensor4.bcAdd_W, Tensor4.bcMul_W, viewC_W, Tensor4.bdim_one_right,
      hp.2.2.2, Tensor4.bdim_self]

lemma mkNAF_fwd_dims (c : ℕ) (θ : NAFRaw) (inp : Tensor4)
    (hC : inp.C = c) (hH : 1 ≤ inp.H) (hW : 1 ≤ inp.W) :
    ((mkNAF c θ).fwd inp).B = inp.B ∧
    ((mkNAF c θ).fwd inp).C = inp.C ∧
    ((mkNAF c θ).fwd inp).H = inp.H ∧
    ((mkNAF c θ).fwd inp).W = inp.W := by
  have hr := mkNAF_resid1_dims c θ inp hC hH hW
  have hffn := ffn_dims c c (mkNAF c θ).conv4 (mkNAF c θ).conv5
    ((mkNAF c θ).resid1 inp) ⟨rfl, rfl, rfl, rfl⟩ ⟨rfl, rfl, rfl, rfl⟩
    (mkNAF c θ).n2w (mkNAF c θ).n2b (mkNAF c θ).eps
    (by rw [hr.2.2.1]; exact hH) (by rw [hr.2.2.2]; exact hW)
  have hc0 : (mkNAF c θ).c = c := rfl
  unfold NAFLayer.fwd
  refine ⟨?_, ?_, ?_, ?_⟩
  · rw [Tensor4.bcAdd_B, Tensor4.bcMul_B, viewC_B, Tensor4.bdim_one_right,
      hffn.1, hr.1, Tensor4.bdim_self]
  · rw [Tensor4.bcAdd_C, Tensor4.bcMul_C, viewC_C, hffn.2.1, hc0,
      Tensor4.bdim_self, hr.2.1, hC, Tensor4.bdim_self]
  · rw [Tensor4.bcAdd_H, Tensor4.bcMul_H, viewC_H, Tensor4.bdim_one_right,
      hffn.2.2.1, hr.2.2.1, Tensor4.bdim_self]
  · rw [Tensor4.bcAdd_W, Tensor4.bcMul_W, viewC_W, Tensor4.bdim_one_right,
      hffn.2.2.2, hr.2.2.2, Tensor4.bdim_self]

lemma seqCG_dims (c : ℕ) : ∀ (blks : List CGBlockLayer) (inp : Tensor4),
    (∀ blk ∈ blks, ∃ g θb, blk = mkCGBlock c g θb) → inp.C = c →
    1 ≤ inp.H → 1 ≤ inp.W →
    (seqCG blks inp).B = inp.B ∧ (seqCG blks inp).C = inp.C ∧
    (seqCG blks inp).H = inp.H ∧ (seqCG blks inp).W = inp.W := by
  intro blks
  induction blks with
  | nil => exact fun inp _ _ _ _ => ⟨rfl, rfl, rfl, rfl⟩
  | cons b t ih =>
    intro inp hblks hC hH hW
    obtain ⟨g, θb, rfl⟩ := hblks b (List.mem_cons_self b t)
    have hb := mkCGBlock_fwd_dims c g θb inp hC hH hW
    have hrec := ih ((mkCGBlock c g θb).fwd inp)
      (fun m hm => hblks m (List.mem_cons_of_mem _ hm))
      (by rw [hb.2.1, hC]) (by rw [hb.2.2.1]; exact hH)
      (by rw [hb.2.2.2]; exact hW)
    show (seqCG t ((mkCGBlock c g θb).fwd inp)).B = inp.B ∧
      (seqCG t ((mkCGBlock c g θb).fwd inp)).C = inp.C ∧
      (seqCG t ((mkCGBlock c g θb).fwd inp)).H = inp.H ∧
      (seqCG t ((mkCGBlock c g θb).fwd inp)).W = inp.W
    exact ⟨hrec.1.trans hb.1, hrec.2.1.trans hb.2.1,
      hrec.2.2.1.trans hb.2.2.1, hrec.2.2.2.trans hb.2.2.2⟩

lemma seqNAF_dims (c : ℕ) : ∀ (blks : List NAFLayer) (inp : Tensor4),
    (∀ blk ∈ blks, ∃ θb, blk = mkNAF c θb) → inp.C = c →
    1 ≤ inp.H → 1 ≤ inp.W →
    (seqNAF blks inp).B = inp.B ∧ (seqNAF blks inp).C = inp.C ∧
    (seqNAF blks inp).H = inp.H ∧ (seqNAF blks inp).W = inp.W := by
  intro blks
  induction blks with
  | nil => exact fun inp _ _ _ _ => ⟨rfl, rfl, rfl, rfl⟩
  | cons b t ih =>
    intro inp hblks hC hH hW
    obtain ⟨θb, rfl⟩ := hblks b (List.mem_cons_self b t)
    have hb := mkNAF_fwd_dims c θb inp hC hH hW
    have hrec := ih ((mkNAF c θb).fwd inp)
      (fun m hm => hblks m (List.mem_cons_of_mem _ hm))
      (by rw [hb.2.1, hC]) (by rw [hb.2.2.1]; exact hH)
      (by rw [hb.2.2.2]; exact hW)
    show (seqNAF t ((mkNAF c θb).fwd inp)).B = inp.B ∧
      (seqNAF t ((mkNAF c θb).fwd inp)).C = inp.C ∧
      (seqNAF t ((mkNAF c θb).fwd inp)).H = inp.H ∧
      (seqNAF t ((mkNAF c θb).fwd inp)).W = inp.W
    exact ⟨hrec.1.trans hb.1, hrec.2.1.trans hb.2.1,
      hrec.2.2.1.trans hb.2.2.1, hrec.2.2.2.trans hb.2.2.2⟩

lemma rangeMapCG_mem (c g n : ℕ) (f : ℕ → CGBlockRaw) :
    ∀ blk ∈ (List.range n).map fun j => mkCGBlock c g (f j),
      ∃ gb θb, blk = mkCGBlock c gb θb := by
  intro blk hb
  simp only [List.mem_map] at hb
  obtain ⟨j, _, rfl⟩ := hb
  exact ⟨g, f j, rfl⟩

lemma rangeMapNAF_mem (c n : ℕ) (f : ℕ → NAFRaw) :
    ∀ blk ∈ (List.range n).map fun j => mkNAF c (f j),
      ∃ θb, blk = mkNAF c θb := by
  intro blk hb
  simp only [List.mem_map] at hb
  obtain ⟨j, _, rfl⟩ := hb
  exact ⟨f j, rfl⟩

lemma encLoop_nil (x : Tensor4) : encLoop [] x = ([], x) := rfl

lemma encLoop_cons (e : List CGBlockLayer) (d : Conv2dLayer)
    (rest : List (List CGBlockLayer × Conv2dLayer)) (x : Tensor4) :
    encLoop ((e, d) :: rest) x =
      (seqCG e x :: (encLoop rest (d.fwd (seqCG e x))).1,
        (encLoop rest (d.fwd (seqCG e x))).2) := rfl

lemma decTrace_nil (skips : List Tensor4) (x : Tensor4) :
    decTrace [] skips x = [] := rfl

lemma decTrace_cons (dec : List NAFLayer) (upc : Conv2dLayer)
    (rest : List (List NAFLayer × Conv2dLayer)) (skip : Tensor4)
    (skips : List Tensor4) (x : Tensor4) :
    decTrace ((dec, upc) :: rest) (skip :: skips) x =
      (upFwd upc x, skip) :: decTrace rest skips
        (seqNAF dec (Tensor4.bcAdd (upFwd upc x) skip)) := rfl

lemma upFwd_dims (l : Conv2dLayer) (x : Tensor4) (hK : l.K = 1)
    (hs : l.stride = 1) (hp : l.pad = 0) (hH : 1 ≤ x.H) (hW : 1 ≤ x.W) :
    (upFwd l x).B = x.B ∧ (upFwd l x).C = l.Cout / 4 ∧
    (upFwd l x).H = 2 * x.H ∧ (upFwd l x).W = 2 * x.W := by
  unfold upFwd CustomPixelShuffle.fwd
  refine ⟨rfl, ?_, ?_, ?_⟩
  · show l.Cout / 2 ^ 2 = l.Cout / 4
    norm_num
  · show ((x.H + 2 * l.pad - l.K) / l.stride + 1) * 2 = 2 * x.H
    rw [hK, hs, hp]
    omega
  · show ((x.W + 2 * l.pad - l.K) / l.stride + 1) * 2 = 2 * x.W
    rw [hK, hs, hp]
    omega

lemma list4_eq (l : List Tensor4) (hl : l.length = 4) :
    l = [l.getD 0 zero4, l.getD 1 zero4, l.getD 2 zero4, l.getD 3 zero4] := by
  match l, hl with
  | [a, b, c, d], _ => rfl

lemma encLoop_mk_dims (ic : ℕ) (θ : CGNetRaw) (x0 : Tensor4) (m k : ℕ)
    (hC : x0.C = 60) (hH : x0.H = 16 * m) (hW : x0.W = 16 * k)
    (hm : 1 ≤ m) (hk : 1 ≤ k) :
    (encLoop ((mkCGNet ic θ).encoders.zip (mkCGNet ic θ).downs)
        x0).1.length = 4 ∧
    (∀ i < 4,
      (((encLoop ((mkCGNet ic θ).encoders.zip (mkCGNet ic θ).downs)
          x0).1.getD i zero4).B = x0.B ∧
       ((encLoop ((mkCGNet ic θ).encoders.zip (mkCGNet ic θ).downs)
          x0).1.getD i zero4).C = 60 * 2 ^ i ∧
       ((encLoop ((mkCGNet ic θ).encoders.zip (mkCGNet ic θ).downs)
          x0).1.getD i zero4).H = 2 ^ (4 - i) * m ∧
       ((encLoop ((mkCGNet ic θ).encoders.zip (mkCGNet ic θ).downs)
          x0).1.getD i zero4).W = 2 ^ (4 - i) * k)) ∧
    (encLoop ((mkCGNet ic θ).encoders.zip (mkCGNet ic θ).downs) x0).2.B =
      x0.B ∧
    (encLoop ((mkCGNet ic θ).encoders.zip (mkCGNet ic θ).downs) x0).2.C =
      960 ∧
    (encLoop ((mkCGNet ic θ).encoders.zip (mkCGNet ic θ).downs) x0).2.H =
      m ∧
    (encLoop ((mkCGNet ic θ).encoders.zip (mkCGNet ic θ).downs) x0).2.W =
      k := by
  have hzip : (mkCGNet ic θ).encoders.zip (mkCGNet ic θ).downs =
      [((List.range 2).map fun j => mkCGBlock 60 3 (θ.enc 0 j),
        (⟨60, 120, 2, 2, 0, 1, true, (θ.down 0).w, (θ.down 0).b⟩ :
          Conv2dLayer)),
       ((List.range 2).map fun j => mkCGBlock 120 3 (θ.enc 1 j),
        ⟨120, 240, 2, 2, 0, 1, true, (θ.down 1).w, (θ.down 1).b⟩),
       ((List.range 4).map fun j => mkCGBlock 240 2 (θ.enc 2 j),
        ⟨240, 480, 2, 2, 0, 1, true, (θ.down 2).w, (θ.down 2).b⟩),
       ((List.range 6).map fun j => mkCGBlock 480 2 (θ.enc 3 j),
        ⟨480, 960, 2, 2, 0, 1, true, (θ.down 3).w, (θ.down 3).b⟩)] := rfl
  rw [hzip, encLoop_cons, encLoop_cons, encLoop_cons, encLoop_cons,
    encLoop_nil]
  dsimp only
  have hx0H : 1 ≤ x0.H := by omega
  have hx0W : 1 ≤ x0.W := by omega
  have he0 := seqCG_dims 60 _ x0 (rangeMapCG_mem 60 3 2 (θ.enc 0)) hC hx0H
    hx0W
  set E0 := seqCG ((List.range 2).map fun j => mkCGBlock 60 3 (θ.enc 0 j))
    x0 with hE0def
  have hX1B : ((⟨60, 120, 2, 2, 0, 1, true, (θ.down 0).w, (θ.down 0).b⟩ :
      Conv2dLayer).fwd E0).B = x0.B := by
    rw [conv_fwd_B, he0.1]
  have hX1C : ((⟨60, 120, 2, 2, 0, 1, true, (θ.down 0).w, (θ.down 0).b⟩ :
      Conv2dLayer).fwd E0).C = 120 := rfl
  have hX1H : ((⟨60, 120, 2, 2, 0, 1, true, (θ.down 0).w, (θ.down 0).b⟩ :
      Conv2dLayer).fwd E0).H = 8 * m := by
    rw [conv_fwd_H, he0.2.2.1, hH]
    show (16 * m + 2 * 0 - 2) / 2 + 1 = 8 * m
    omega
  have hX1W : ((⟨60, 120, 2, 2, 0, 1, true, (θ.down 0).w, (θ.down 0).b⟩ :
      Conv2dLayer).fwd E0).W = 8 * k := by
    rw [conv_fwd_W, he0.2.2.2, hW]
    show (16 * k + 2 * 0 - 2) / 2 + 1 = 8 * k
    omega
  have he1 := seqCG_dims 120 _ _ (rangeMapCG_mem 120 3 2 (θ.enc 1)) hX1C
    (by rw [hX1H]; omega) (by rw [hX1W]; omega)
  set E1 := seqCG ((List.range 2).map fun j => mkCGBlock 120 3 (θ.enc 1 j))
    ((⟨60, 120, 2, 2, 0, 1, true, (θ.down 0).w, (θ.down 0).b⟩ :
      Conv2dLayer).fwd E0) with hE1def
  have hX2B : ((⟨120, 240, 2, 2, 0, 1, true, (θ.down 1).w, (θ.down 1).b⟩ :
      Conv2dLayer).fwd E1).B = x0.B := by
    rw [conv_fwd_B, he1.1, hX1B]
  have hX2C : ((⟨120, 240, 2, 2, 0, 1, true, (θ.down 1).w, (θ.down 1).b⟩ :
      Conv2dLayer).fwd E1).C = 240 := rfl
  have hX2H : ((⟨120, 240, 2, 2, 0, 1, true, (θ.down 1).w, (θ.down 1).b⟩ :
      Conv2dLayer).fwd E1).H = 4 * m := by
    rw [conv_fwd_H, he1.2.2.1, hX1H]
    show (8 * m + 2 * 0 - 2) / 2 + 1 = 4 * m
    omega
  have hX2W : ((⟨120, 240, 2, 2, 0, 1, true, (θ.down 1).w, (θ.down 1).b⟩ :
      Conv2dLayer).fwd E1).W = 4 * k := by
    rw [conv_fwd_W, he1.2.2.2, hX1W]
    show (8 * k + 2 * 0 - 2) / 2 + 1 = 4 * k
    omega
  have he2 := seqCG_dims 240 _ _ (rangeMapCG_mem 240 2 4 (θ.enc 2)) hX2C
    (by rw [hX2H]; omega) (by rw [hX2W]; omega)
  set E2 := seqCG ((List.range 4).map fun j => mkCGBlock 240 2 (θ.enc 2 j))
    ((⟨120, 240, 2, 2, 0, 1, true, (θ.down 1).w, (θ.down 1).b⟩ :
      Conv2dLayer).fwd E1) with hE2def
  have hX3B : ((⟨240, 480, 2, 2, 0, 1, true, (θ.down 2).w, (θ.down 2).b⟩ :
      Conv2dLayer).fwd E2).B = x0.B := by
    rw [conv_fwd_B, he2.1, hX2B]
  have hX3C : ((⟨240, 480, 2, 2, 0, 1, true, (θ.down 2).w, (θ.down 2).b⟩ :
      Conv2dLayer).fwd E2).C = 480 := rfl
  have hX3H : ((⟨240, 480, 2, 2, 0, 1, true, (θ.down 2).w, (θ.down 2).b⟩ :
      Conv2dLayer).fwd E2).H = 2 * m := by
    rw [conv_fwd_H, he2.2.2.1, hX2H]
    show (4 * m + 2 * 0 - 2) / 2 + 1 = 2 * m
    omega
  have hX3W : ((⟨240, 480, 2, 2, 0, 1, true, (θ.down 2).w, (θ.down 2).b⟩ :
      Conv2dLayer).fwd E2).W = 2 * k := by
    rw [conv_fwd_W, he2.2.2.2, hX2W]
    show (4 * k + 2 * 0 - 2) / 2 + 1 = 2 * k
    omega
  have he3 := seqCG_dims 480 _ _ (rangeMapCG_mem 480 2 6 (θ.enc 3)) hX3C
    (by rw [hX3H]; omega) (by rw [hX3W]; omega)
  set E3 := seqCG ((List.range 6).map fun j => mkCGBlock 480 2 (θ.enc 3 j))
    ((⟨240, 480, 2, 2, 0, 1, true, (θ.down 2).w, (θ.down 2).b⟩ :
      Conv2dLayer).fwd E2) with hE3def
  refine ⟨by simp, ?_, ?_, ?_, ?_, ?_⟩
  · intro i hi
    interval_cases i <;>
      simp only [List.getD_cons_zero, List.getD_cons_succ]
    · refine ⟨he0.1, ?_, ?_, ?_⟩
      · rw [he0.2.1, hC]
        norm_num
      · rw [he0.2.2.1, hH]
        norm_num
      · rw [he0.2.2.2, hW]
        norm_num
    · refine ⟨he1.1.trans hX1B, ?_, ?_, ?_⟩
      · rw [he1.2.1, hX1C]
        norm_num
      · rw [he1.2.2.1, hX1H]
        norm_num
      · rw [he1.2.2.2, hX1W]
        norm_num
    · refine ⟨he2.1.trans hX2B, ?_, ?_, ?_⟩
      · rw [he2.2.1, hX2C]
        norm_num
      · rw [he2.2.2.1, hX2H]
        norm_num
      · rw [he2.2.2.2, hX2W]
        norm_num
    · refine ⟨he3.1.trans hX3B, ?_, ?_, ?_⟩
      · rw [he3.2.1, hX3C]
        norm_num
      · rw [he3.2.2.1, hX3H]
        norm_num
      · rw [he3.2.2.2, hX3W]
        norm_num
  · rw [conv_fwd_B, he3.1, hX3B]
  · rfl
  · rw [conv_fwd_H, he3.2.2.1, hX3H]
    show (2 * m + 2 * 0 - 2) / 2 + 1 = m
    omega
  · rw [conv_fwd_W, he3.2.2.2, hX3W]
    show (2 * k + 2 * 0 - 2) / 2 + 1 = k
    omega

/-- C8: in `CascadedGaze.forward` the saved encoder outputs are consumed in
reverse order by the decoder loop — with 4 encoder stages, the decoder at
execution index `i` adds the output of encoder stage `4 - 1 - i` — and at
every stage the upsampled tensor and the skip tensor it is added to have
identical shapes. -/
theorem skip_connections_match (ic : ℕ) (θ : CGNetRaw) (inp : Tensor4)
    (hC : inp.C = ic) (hH : 1 ≤ inp.H) (hW : 1 ≤ inp.W) :
    (CGNet.encSaved (mkCGNet ic θ) inp).length = 4 ∧
    (CGNet.decPairs (mkCGNet ic θ) inp).length = 4 ∧
    ∀ i < 4,
      ((CGNet.decPairs (mkCGNet ic θ) inp).getD i (zero4, zero4)).2 =
        (CGNet.encSaved (mkCGNet ic θ) inp).getD (4 - 1 - i) zero4 ∧
      ((CGNet.decPairs (mkCGNet ic θ) inp).getD i (zero4, zero4)).1.B =
        ((CGNet.decPairs (mkCGNet ic θ) inp).getD i (zero4, zero4)).2.B ∧
      ((CGNet.decPairs (mkCGNet ic θ) inp).getD i (zero4, zero4)).1.C =
        ((CGNet.decPairs (mkCGNet ic θ) inp).getD i (zero4, zero4)).2.C ∧
      ((CGNet.decPairs (mkCGNet ic θ) inp).getD i (zero4, zero4)).1.H =
        ((CGNet.decPairs (mkCGNet ic θ) inp).getD i (zero4, zero4)).2.H ∧
      ((CGNet.decPairs (mkCGNet ic θ) inp).getD i (zero4, zero4)).1.W =
        ((CGNet.decPairs (mkCGNet ic θ) inp).getD i (zero4, zero4)).2.W := by
  have hps : (mkCGNet ic θ).padder_size = 16 := by
    show (2 : ℕ) ^ 4 = 16
    norm_num
  unfold CGNet.decPairs CGNet.encSaved CGNet.midOut
  rw [hps]
  have hPH0 : (checkImageSize 16 inp).H = inp.H + 0 + (16 - inp.H % 16) % 16
    := rfl
  have hPW0 : (checkImageSize 16 inp).W = inp.W + 0 + (16 - inp.W % 16) % 16
    := rfl
  have hH1 : (checkImageSize 16 inp).H = 16 * ((inp.H + 15) / 16) := by
    omega
  have hW1 : (checkImageSize 16 inp).W = 16 * ((inp.W + 15) / 16) := by
    omega
  have hm : 1 ≤ (inp.H + 15) / 16 := by omega
  have hk : 1 ≤ (inp.W + 15) / 16 := by omega
  set P := checkImageSize 16 inp with hPdef
  set X0 := (mkCGNet ic θ).intro.fwd P with hX0def
  have hX0C : X0.C = 60 := rfl
  have hX0H : X0.H = 16 * ((inp.H + 15) / 16) := by
    rw [hX0def, conv_fwd_H, hH1]
    show (16 * ((inp.H + 15) / 16) + 2 * 1 - 3) / 1 + 1 = _
    omega
  have hX0W : X0.W = 16 * ((inp.W + 15) / 16) := by
    rw [hX0def, conv_fwd_W, hW1]
    show (16 * ((inp.W + 15) / 16) + 2 * 1 - 3) / 1 + 1 = _
    omega
  have hel := encLoop_mk_dims ic θ X0 ((inp.H + 15) / 16)
    ((inp.W + 15) / 16) hX0C hX0H hX0W hm hk
  set EV := encLoop ((mkCGNet ic θ).encoders.zip (mkCGNet ic θ).downs) X0
    with hEVdef
  have hmid : ∀ blk ∈ (mkCGNet ic θ).middleBlks, ∃ θb, blk = mkNAF 960 θb :=
    fun blk hb => rangeMapNAF_mem 960 10 θ.mid blk hb
  have hxm := seqNAF_dims 960 (mkCGNet ic θ).middleBlks EV.2 hmid
    hel.2.2.2.1 (by rw [hel.2.2.2.2.1]; omega)
    (by rw [hel.2.2.2.2.2]; omega)
  set XM := seqNAF (mkCGNet ic θ).middleBlks EV.2 with hXMdef
  have hXMB : XM.B = X0.B := hxm.1.trans hel.2.2.1
  have hXMH : XM.H = (inp.H + 15) / 16 := hxm.2.2.1.trans hel.2.2.2.2.1
  have hXMW : XM.W = (inp.W + 15) / 16 := hxm.2.2.2.trans hel.2.2.2.2.2
  have hrev : EV.1.reverse = [EV.1.getD 3 zero4, EV.1.getD 2 zero4,
      EV.1.getD 1 zero4, EV.1.getD 0 zero4] := by
    rw [list4_eq EV.1 hel.1]
    simp
  rw [hrev]
  have hg3B : (EV.1.getD 3 zero4).B = X0.B := (hel.2.1 3 (by omega)).1
  have hg3C : (EV.1.getD 3 zero4).C = 480 := by
    rw [(hel.2.1 3 (by omega)).2.1]
    norm_num
  have hg3H : (EV.1.getD 3 zero4).H = 2 * ((inp.H + 15) / 16) := by
    rw [(hel.2.1 3 (by omega)).2.2.1]
    norm_num
  have hg3W : (EV.1.getD 3 zero4).W = 2 * ((inp.W + 15) / 16) := by
    rw [(hel.2.1 3 (by omega)).2.2.2]
    norm_num
  have hg2B : (EV.1.getD 2 zero4).B = X0.B := (hel.2.1 2 (by omega)).1
  have hg2C : (EV.1.getD 2 zero4).C = 240 := by
    rw [(hel.2.1 2 (by omega)).2.1]
    norm_num
  have hg2H : (EV.1.getD 2 zero4).H = 4 * ((inp.H + 15) / 16) := by
    rw [(hel.2.1 2 (by omega)).2.2.1]
    norm_num
  have hg2W : (EV.1.getD 2 zero4).W = 4 * ((inp.W + 15) / 16) := by
    rw [(hel.2.1 2 (by omega)).2.2.2]
    norm_num
  have hg1B : (EV.1.getD 1 zero4).B = X0.B := (hel.2.1 1 (by omega)).1
  have hg1C : (EV.1.getD 1 zero4).C = 120 := by
    rw [(hel.2.1 1 (by omega)).2.1]
    norm_num
  have hg1H : (EV.1.getD 1 zero4).H = 8 * ((inp.H + 15) / 16) := by
    rw [(hel.2.1 1 (by omega)).2.2.1]
    norm_num
  have hg1W : (EV.1.getD 1 zero4).W = 8 * ((inp.W + 15) / 16) := by
    rw [(hel.2.1 1 (by omega)).2.2.2]
    norm_num
  have hg0B : (EV.1.getD 0 zero4).B = X0.B := (hel.2.1 0 (by omega)).1
  have hg0C : (EV.1.getD 0 zero4).C = 60 := by
    rw [(hel.2.1 0 (by omega)).2.1]
    norm_num
  have hg0H : (EV.1.getD 0 zero4).H = 16 * ((inp.H + 15) / 16) := by
    rw [(hel.2.1 0 (by omega)).2.2.1]
    norm_num
  have hg0W : (EV.1.getD 0 zero4).W = 16 * ((inp.W + 15) / 16) := by
    rw [(hel.2.1 0 (by omega)).2.2.2]
    norm_num
  have hzip2 : (mkCGNet ic θ).decoders.zip (mkCGNet ic θ).ups =
      [((List.range 2).map fun j => mkNAF 480 (θ.dec 0 j),
        (⟨960, 1920, 1, 1, 0, 1, false, (θ.up 0).w, (θ.up 0).b⟩ :
          Conv2dLayer)),
       ((List.range 2).map fun j => mkNAF 240 (θ.dec 1 j),
        ⟨480, 960, 1, 1, 0, 1, false, (θ.up 1).w, (θ.up 1).b⟩),
       ((List.range 2).map fun j => mkNAF 120 (θ.dec 2 j),
        ⟨240, 480, 1, 1, 0, 1, false, (θ.up 2).w, (θ.up 2).b⟩),
       ((List.range 2).map fun j => mkNAF 60 (θ.dec 3 j),
        ⟨120, 240, 1, 1, 0, 1, false, (θ.up 3).w, (θ.up 3).b⟩)] := rfl
  rw [hzip2, decTrace_cons, decTrace_cons, decTrace_cons, decTrace_cons,
    decTrace_nil]
  have hu0 := upFwd_dims
    ⟨960, 1920, 1, 1, 0, 1, false, (θ.up 0).w, (θ.up 0).b⟩ XM rfl rfl rfl
    (by rw [hXMH]; omega) (by rw [hXMW]; omega)
  have ha0B : (Tensor4.bcAdd (upFwd
      ⟨960, 1920, 1, 1, 0, 1, false, (θ.up 0).w, (θ.up 0).b⟩ XM)
      (EV.1.getD 3 zero4)).B = X0.B := by
    rw [Tensor4.bcAdd_B, hu0.1, hXMB, hg3B, Tensor4.bdim_self]
  have ha0C : (Tensor4.bcAdd (upFwd
      ⟨960, 1920, 1, 1, 0, 1, false, (θ.up 0).w, (θ.up 0).b⟩ XM)
      (EV.1.getD 3 zero4)).C = 480 := by
    rw [Tensor4.bcAdd_C, hu0.2.1, hg3C]
    norm_num
  have ha0H : (Tensor4.bcAdd (upFwd
      ⟨960, 1920, 1, 1, 0, 1, false, (θ.up 0).w, (θ.up 0).b⟩ XM)
      (EV.1.getD 3 zero4)).H = 2 * ((inp.H + 15) / 16) := by
    rw [Tensor4.bcAdd_H, hu0.2.2.1, hXMH, hg3H, Tensor4.bdim_self]
  have ha0W : (Tensor4.bcAdd (upFwd
      ⟨960, 1920, 1, 1, 0, 1, false, (θ.up 0).w, (θ.up 0).b⟩ XM)
      (EV.1.getD 3 zero4)).W = 2 * ((inp.W + 15) / 16) := by
    rw [Tensor4.bcAdd_W, hu0.2.2.2, hXMW, hg3W, Tensor4.bdim_self]
  have hr0 := seqNAF_dims 480 _ _ (rangeMapNAF_mem 480 2 (θ.dec 0)) ha0C
    (by rw [ha0H]; omega) (by rw [ha0W]; omega)
  set R0 := seqNAF ((List.range 2).map fun j => mkNAF 480 (θ.dec 0 j))
    (Tensor4.bcAdd (upFwd
      ⟨960, 1920, 1, 1, 0, 1, false, (θ.up 0).w, (θ.up 0).b⟩ XM)
      (EV.1.getD 3 zero4)) with hR0def
  have hR0B : R0.B = X0.B := hr0.1.trans ha0B
  have hR0H : R0.H = 2 * ((inp.H + 15) / 16) := hr0.2.2.1.trans ha0H
  have hR0W : R0.W = 2 * ((inp.W + 15) / 16) := hr0.2.2.2.trans ha0W
  have hu1 := upFwd_dims
    ⟨480, 960, 1, 1, 0, 1, false, (θ.up 1).w, (θ.up 1).b⟩ R0 rfl rfl rfl
    (by rw [hR0H]; omega) (by rw [hR0W]; omega)
  have ha1B : (Tensor4.bcAdd (upFwd
      ⟨480, 960, 1, 1, 0, 1, false, (θ.up 1).w, (θ.up 1).b⟩ R0)
      (EV.1.getD 2 zero4)).B = X0.B := by
    rw [Tensor4.bcAdd_B, hu1.1, hR0B, hg2B, Tensor4.bdim_self]
  have ha1C : (Tensor4.bcAdd (upFwd
      ⟨480, 960, 1, 1, 0, 1, false, (θ.up 1).w, (θ.up 1).b⟩ R0)
      (EV.1.getD 2 zero4)).C = 240 := by
    rw [Tensor4.bcAdd_C, hu1.2.1, hg2C]
    norm_num
  have ha1H : (Tensor4.bcAdd (upFwd
      ⟨480, 960, 1, 1, 0, 1, false, (θ.up 1).w, (θ.up 1).b⟩ R0)
      (EV.1.getD 2 zero4)).H = 4 * ((inp.H + 15) / 16) := by
    rw [Tensor4.bcAdd_H, hu1.2.2.1, hR0H, hg2H,
      show 2 * (2 * ((inp.H + 15) / 16)) = 4 * ((inp.H + 15) / 16) by ring,
      Tensor4.bdim_self]
  have ha1W : (Tensor4.bcAdd (upFwd
      ⟨480, 960, 1, 1, 0, 1, false, (θ.up 1).w, (θ.up 1).b⟩ R0)
      (EV.1.getD 2 zero4)).W = 4 * ((inp.W + 15) / 16) := by
    rw [Tensor4.bcAdd_W, hu1.2.2.2, hR0W, hg2W,
      show 2 * (2 * ((inp.W + 15) / 16)) = 4 * ((inp.W + 15) / 16) by ring,
      Tensor4.bdim_self]
  have hr1 := seqNAF_dims 240 _ _ (rangeMapNAF_mem 240 2 (θ.dec 1)) ha1C
    (by rw [ha1H]; omega) (by rw [ha1W]; omega)
  set R1 := seqNAF ((List.range 2).map fun j => mkNAF 240 (θ.dec 1 j))
    (Tensor4.bcAdd (upFwd
      ⟨480, 960, 1, 1, 0, 1, false, (θ.up 1).w, (θ.up 1).b⟩ R0)
      (EV.1.getD 2 zero4)) with hR1def
  have hR1B : R1.B = X0.B := hr1.1.trans ha1B
  have hR1H : R1.H = 4 * ((inp.H + 15) / 16) := hr1.2.2.1.trans ha1H
  have hR1W : R1.W = 4 * ((inp.W + 15) / 16) := hr1.2.2.2.trans ha1W
  have hu2 := upFwd_dims
    ⟨240, 480, 1, 1, 0, 1, false, (θ.up 2).w, (θ.up 2).b⟩ R1 rfl rfl rfl
    (by rw [hR1H]; omega) (by rw [hR1W]; omega)
  have ha2B : (Tensor4.bcAdd (upFwd
      ⟨240, 480, 1, 1, 0, 1, false, (θ.up 2).w, (θ.up 2).b⟩ R1)
      (EV.1.getD 1 zero4)).B = X0.B := by
    rw [Tensor4.bcAdd_B, hu2.1, hR1B, hg1B, Tensor4.bdim_self]
  have ha2C : (Tensor4.bcAdd (upFwd
      ⟨240, 480, 1, 1, 0, 1, false, (θ.up 2).w, (θ.up 2).b⟩ R1)
      (EV.1.getD 1 zero4)).C = 120 := by
    rw [Tensor4.bcAdd_C, hu2.2.1, hg1C]
    norm_num
  have ha2H : (Tensor4.bcAdd (upFwd
      ⟨240, 480, 1, 1, 0, 1, false, (θ.up 2).w, (θ.up 2).b⟩ R1)
      (EV.1.getD 1 zero4)).H = 8 * ((inp.H + 15) / 16) := by
    rw [Tensor4.bcAdd_H, hu2.2.2.1, hR1H, hg1H,
      show 2 * (4 * ((inp.H + 15) / 16)) = 8 * ((inp.H + 15) / 16) by ring,
      Tensor4.bdim_self]
  have ha2W : (Tensor4.bcAdd (upFwd
      ⟨240, 480, 1, 1, 0, 1, false, (θ.up 2).w, (θ.up 2).b⟩ R1)
      (EV.1.getD 1 zero4)).W = 8 * ((inp.W + 15) / 16) := by
    rw [Tensor4.bcAdd_W, hu2.2.2.2, hR1W, hg1W,
      show 2 * (4 * ((inp.W + 15) / 16)) = 8 * ((inp.W + 15) / 16) by ring,
      Tensor4.bdim_self]
  have hr2 := seqNAF_dims 120 _ _ (rangeMapNAF_mem 120 2 (θ.dec 2)) ha2C
    (by rw [ha2H]; omega) (by rw [ha2W]; omega)
  set R2 := seqNAF ((List.range 2).map fun j => mkNAF 120 (θ.dec 2 j))
    (Tensor4.bcAdd (upFwd
      ⟨240, 480, 1, 1, 0, 1, false, (θ.up 2).w, (θ.up 2).b⟩ R1)
      (EV.1.getD 1 zero4)) with hR2def
  have hR2B : R2.B = X0.B := hr2.1.trans ha2B
  have hR2H : R2.H = 8 * ((inp.H + 15) / 16) := hr2.2.2.1.trans ha2H
  have hR2W : R2.W = 8 * ((inp.W + 15) / 16) := hr2.2.2.2.trans ha2W
  have hu3 := upFwd_dims
    ⟨120, 240, 1, 1, 0, 1, false, (θ.up 3).w, (θ.up 3).b⟩ R2 rfl rfl rfl
    (by rw [hR2H]; omega) (by rw [hR2W]; omega)
  refine ⟨hel.1, by simp, ?_⟩
  intro i hi
  interval_cases i <;>
    simp only [List.getD_cons_zero, List.getD_cons_succ]
  · refine ⟨trivial, ?_, ?_, ?_, ?_⟩
    · show (upFwd _ XM).B = (EV.1.getD 3 zero4).B
      rw [hu0.1, hXMB, hg3B]
    · show (upFwd _ XM).C = (EV.1.getD 3 zero4).C
      rw [hu0.2.1, hg3C]
      norm_num
    · show (upFwd _ XM).H = (EV.1.getD 3 zero4).H
      rw [hu0.2.2.1, hXMH, hg3H]
    · show (upFwd _ XM).W = (EV.1.getD 3 zero4).W
      rw [hu0.2.2.2, hXMW, hg3W]
  · refine ⟨trivial, ?_, ?_, ?_, ?_⟩
    · show (upFwd _ R0).B = (EV.1.getD 2 zero4).B
      rw [hu1.1, hR0B, hg2B]
    · show (upFwd _ R0).C = (EV.1.getD 2 zero4).C
      rw [hu1.2.1, hg2C]
      norm_num
    · show (upFwd _ R0).H = (EV.1.getD 2 zero4).H
      rw [hu1.2.2.1, hR0H, hg2H]
      ring
    · show (upFwd _ R0).W = (EV.1.getD 2 zero4).W
      rw [hu1.2.2.2, hR0W, hg2W]
      ring
  · refine ⟨trivial, ?_, ?_, ?_, ?_⟩
    · show (upFwd _ R1).B = (EV.1.getD 1 zero4).B
      rw [hu2.1, hR1B, hg1B]
    · show (upFwd _ R1).C = (EV.1.getD 1 zero4).C
      rw [hu2.2.1, hg1C]
      norm_num
    · show (upFwd _ R1).H = (EV.1.getD 1 zero4).H
      rw [hu2.2.2.1, hR1H, hg1H]
      ring
    · show (upFwd _ R1).W = (EV.1.getD 1 zero4).W
      rw [hu2.2.2.2, hR1W, hg1W]
      ring
  · refine ⟨trivial, ?_, ?_, ?_, ?_⟩
    · show (upFwd _ R2).B = (EV.1.getD 0 zero4).B
      rw [hu3.1, hR2B, hg0B]
    · show (upFwd _ R2).C = (EV.1.getD 0 zero4).C
      rw [hu3.2.1, hg0C]
      norm_num
    · show (upFwd _ R2).H = (EV.1.getD 0 zero4).H
      rw [hu3.2.2.1, hR2H, hg0H]
      ring
    · show (upFwd _ R2).W = (EV.1.getD 0 zero4).W
      rw [hu3.2.2.2, hR2W, hg0W]
      ring

/-- Witness for C8 at a concrete input: for the all-zero-parameter network
on a 1×1×1×1 input, there are 4 saved encoder outputs, 4 decoder stages,
and at decoder stage 0 the skip used is encoder output 3 with matching
height. -/
theorem skip_connections_match_witness :
    (CGNet.encSaved (mkCGNet 1 zeroNetRaw) t1x1).length = 4 ∧
    (CGNet.decPairs (mkCGNet 1 zeroNetRaw) t1x1).length = 4 ∧
    ((CGNet.decPairs (mkCGNet 1 zeroNetRaw) t1x1).getD 0
        (zero4, zero4)).2 =
      (CGNet.encSaved (mkCGNet 1 zeroNetRaw) t1x1).getD 3 zero4 ∧
    ((CGNet.decPairs (mkCGNet 1 zeroNetRaw) t1x1).getD 0
        (zero4, zero4)).1.H =
      ((CGNet.decPairs (mkCGNet 1 zeroNetRaw) t1x1).getD 0
        (zero4, zero4)).2.H := by
  have h := skip_connections_match 1 zeroNetRaw t1x1 (by decide) (by decide)
    (by decide)
  have h0 := h.2.2 0 (by decide)
  exact ⟨h.1, h.2.1, h0.1, h0.2.2.2.1⟩

/-! ### C9: with beta = gamma = 0 both residual blocks are the identity -/

lemma bcAdd_data (x y : Tensor4) (b c h w : ℕ) :
    (Tensor4.bcAdd x y).data b c h w =
      x.data (Tensor4.bidx x.B b) (Tensor4.bidx x.C c) (Tensor4.bidx x.H h)
        (Tensor4.bidx x.W w) +
      y.data (Tensor4.bidx y.B b) (Tensor4.bidx y.C c) (Tensor4.bidx y.H h)
        (Tensor4.bidx y.W w) := rfl

lemma bcMul_data (x y : Tensor4) (b c h w : ℕ) :
    (Tensor4.bcMul x y).data b c h w =
      x.data (Tensor4.bidx x.B b) (Tensor4.bidx x.C c) (Tensor4.bidx x.H h)
        (Tensor4.bidx x.W w) *
      y.data (Tensor4.bidx y.B b) (Tensor4.bidx y.C c) (Tensor4.bidx y.H h)
        (Tensor4.bidx y.W w) := rfl

lemma viewC_data (p : ℕ → ℝ) (C b c h w : ℕ) :
    (viewC p C).data b c h w = p c := rfl

/-- C9: with the residual scales `beta` and `gamma` at their initial value
zero (and the dropouts the identity, as in every block CascadedGaze
constructs), both `CascadedGazeBlock.forward` and `NAFBlock0.forward`
return their input unchanged: same shape and same entries at every valid
index. -/
theorem blocks_identity_at_init :
    (∀ (c g : ℕ) (θb : CGBlockRaw) (inp : Tensor4),
      θb.beta = (fun _ => 0) → θb.gamma = (fun _ => 0) → inp.C = c →
      1 ≤ inp.H → 1 ≤ inp.W →
      Tensor4.Eqv ((mkCGBlock c g θb).fwd inp) inp) ∧
    (∀ (c : ℕ) (θb : NAFRaw) (inp : Tensor4),
      θb.beta = (fun _ => 0) → θb.gamma = (fun _ => 0) → inp.C = c →
      1 ≤ inp.H → 1 ≤ inp.W →
      Tensor4.Eqv ((mkNAF c θb).fwd inp) inp) := by
  constructor
  · intro c g θb inp hβ hγ hC hH hW
    have hfd := mkCGBlock_fwd_dims c g θb inp hC hH hW
    have hrd := mkCGBlock_resid1_dims c g θb inp hC hH hW
    refine ⟨hfd.1, hfd.2.1, hfd.2.2.1, hfd.2.2.2, ?_⟩
    intro b hb ch hch h hh w hw
    rw [hfd.1] at hb
    rw [hfd.2.1] at hch
    rw [hfd.2.2.1] at hh
    rw [hfd.2.2.2] at hw
    show (Tensor4.bcAdd ((mkCGBlock c g θb).resid1 inp) _).data b ch h w = _
    rw [bcAdd_data, bcMul_data, viewC_data,
      show (mkCGBlock c g θb).gamma = θb.gamma from rfl, hγ]
    simp only [mul_zero, add_zero]
    rw [Tensor4.bidx_eq_of_lt (show b < ((mkCGBlock c g θb).resid1 inp).B by
        rw [hrd.1]; exact hb),
      Tensor4.bidx_eq_of_lt (show ch < ((mkCGBlock c g θb).resid1 inp).C by
        rw [hrd.2.1]; exact hch),
      Tensor4.bidx_eq_of_lt (show h < ((mkCGBlock c g θb).resid1 inp).H by
        rw [hrd.2.2.1]; exact hh),
      Tensor4.bidx_eq_of_lt (show w < ((mkCGBlock c g θb).resid1 inp).W by
        rw [hrd.2.2.2]; exact hw)]
    show (Tensor4.bcAdd inp _).data b ch h w = _
    rw [bcAdd_data, bcMul_data, viewC_data,
      show (mkCGBlock c g θb).beta = θb.beta from rfl, hβ]
    simp only [mul_zero, add_zero]
    rw [Tensor4.bidx_eq_of_lt hb, Tensor4.bidx_eq_of_lt hch,
      Tensor4.bidx_eq_of_lt hh, Tensor4.bidx_eq_of_lt hw]
  · intro c θb inp hβ hγ hC hH hW
    have hfd := mkNAF_fwd_dims c θb inp hC hH hW
    have hrd := mkNAF_resid1_dims c θb inp hC hH hW
    refine ⟨hfd.1, hfd.2.1, hfd.2.2.1, hfd.2.2.2, ?_⟩
    intro b hb ch hch h hh w hw
    rw [hfd.1] at hb
    rw [hfd.2.1] at hch
    rw [hfd.2.2.1] at hh
    rw [hfd.2.2.2] at hw
    show (Tensor4.bcAdd ((mkNAF c θb).resid1 inp) _).data b ch h w = _
    rw [bcAdd_data, bcMul_data, viewC_data,
      show (mkNAF c θb).gamma = θb.gamma from rfl, hγ]
    simp only [mul_zero, add_zero]
    rw [Tensor4.bidx_eq_of_lt (show b < ((mkNAF c θb).resid1 inp).B by
        rw [hrd.1]; exact hb),
      Tensor4.bidx_eq_of_lt (show ch < ((mkNAF c θb).resid1 inp).C by
        rw [hrd.2.1]; exact hch),
      Tensor4.bidx_eq_of_lt (show h < ((mkNAF c θb).resid1 inp).H by
        rw [hrd.2.2.1]; exact hh),
      Tensor4.bidx_eq_of_lt (show w < ((mkNAF c θb).resid1 inp).W by
        rw [hrd.2.2.2]; exact hw)]
    show (Tensor4.bcAdd inp _).data b ch h w = _
    rw [bcAdd_data, bcMul_data, viewC_data,
      show (mkNAF c θb).beta = θb.beta from rfl, hβ]
    simp only [mul_zero, add_zero]
    rw [Tensor4.bidx_eq_of_lt hb, Tensor4.bidx_eq_of_lt hch,
      Tensor4.bidx_eq_of_lt hh, Tensor4.bidx_eq_of_lt hw]

/-! ### C4: the hand-written backward pass computes the true gradient

`LayerNormFunction.backward` is checked against the mathematical derivative
of the forward map: perturbing one input coordinate (or one weight or bias
coordinate) and differentiating the pairing of the forward output with the
upstream gradient. -/


lemma updT_data_pixel (x : Tensor4) (n c h w : ℕ) (t : ℝ) (i : ℕ) :
    (updT x n c h w t).data n i h w = if i = c then t else x.data n i h w
    := by
  simp [updT]

lemma updT_data_other (x : Tensor4) (n c h w : ℕ) (t : ℝ)
    {n' h' w' : ℕ} (hne : ¬(n' = n ∧ h' = h ∧ w' = w)) (i : ℕ) :
    (updT x n c h w t).data n' i h' w' = x.data n' i h' w' := by
  show (if n' = n ∧ i = c ∧ h' = h ∧ w' = w then t else x.data n' i h' w')
    = _
  rw [if_neg]
  tauto

lemma updT_self (x : Tensor4) (n c h w : ℕ) :
    updT x n c h w (x.data n c h w) = x := by
  obtain ⟨B, C, H, W, f⟩ := x
  show Tensor4.mk B C H W _ = _
  congr 1
  funext n' c' h' w'
  show (if n' = n ∧ c' = c ∧ h' = h ∧ w' = w then f n c h w
    else f n' c' h' w') = f n' c' h' w'
  split
  · next hcond =>
    rw [hcond.1, hcond.2.1, hcond.2.2.1, hcond.2.2.2]
  · rfl

lemma sum_ite_upd (C c : ℕ) (hc : c < C) (f : ℕ → ℝ) (t : ℝ) :
    ∑ i ∈ range C, (if i = c then t else f i) =
      (∑ i ∈ range C, f i) + (t - f c) := by
  have h1 : ∀ i, (if i = c then t else f i) =
      f i + (if i = c then t - f c else 0) := by
    intro i
    by_cases hic : i = c
    · subst hic
      simp
    · simp [hic]
  rw [Finset.sum_congr rfl fun i _ => h1 i, Finset.sum_add_distrib,
    Finset.sum_ite_eq' (range C) c fun _ => t - f c,
    if_pos (mem_range.mpr hc)]

lemma sum_dev_eq_zero (C : ℕ) (hC : C ≠ 0) (f : ℕ → ℝ) :
    ∑ i ∈ range C, (f i - (∑ j ∈ range C, f j) / C) = 0 := by
  rw [Finset.sum_sub_distrib, Finset.sum_const, card_range, nsmul_eq_mul]
  have hC0 : (C : ℝ) ≠ 0 := Nat.cast_ne_zero.mpr hC
  field_simp

lemma chMeanAt_nonneg_var (x : Tensor4) (n h w : ℕ) :
    0 ≤ chVarAt x n h w := by
  unfold chVarAt
  have h1 : 0 ≤ ∑ i ∈ range x.C, (x.data n i h w - chMeanAt x n h w) ^ 2 :=
    Finset.sum_nonneg fun i _ => sq_nonneg _
  positivity

lemma hasDerivAt_chMean_updT (x : Tensor4) (n c h w : ℕ) (hc : c < x.C)
    (t₀ : ℝ) :
    HasDerivAt (fun t => chMeanAt (updT x n c h w t) n h w)
      (1 / x.C) t₀ := by
  have hfun : (fun t => chMeanAt (updT x n c h w t) n h w) =
      fun t => (t + ((∑ i ∈ range x.C, x.data n i h w) -
        x.data n c h w)) / x.C := by
    funext t
    show (∑ i ∈ range x.C, (updT x n c h w t).data n i h w) /
      ((x.C : ℕ) : ℝ) = _
    rw [Finset.sum_congr rfl fun i _ => updT_data_pixel x n c h w t i,
      sum_ite_upd x.C c hc _ t]
    congr 1
    ring
  rw [hfun]
  simpa using ((hasDerivAt_id t₀).add_const _).div_const (x.C : ℝ)

lemma hasDerivAt_chVar_updT (x : Tensor4) (n c h w : ℕ) (hc : c < x.C) :
    HasDerivAt (fun t => chVarAt (updT x n c h w t) n h w)
      (2 * (x.data n c h w - chMeanAt x n h w) / x.C) (x.data n c h w) := by
  have hC0 : x.C ≠ 0 := by omega
  have hC0R : (x.C : ℝ) ≠ 0 := Nat.cast_ne_zero.mpr hC0
  have hMs : chMeanAt (updT x n c h w (x.data n c h w)) n h w =
      chMeanAt x n h w := by rw [updT_self]
  have hfun : (fun t => chVarAt (updT x n c h w t) n h w) =
      fun t => (∑ i ∈ range x.C, ((if i = c then t else x.data n i h w) -
        chMeanAt (updT x n c h w t) n h w) ^ 2) / x.C := by
    funext t
    show (∑ i ∈ range x.C, ((updT x n c h w t).data n i h w -
      chMeanAt (updT x n c h w t) n h w) ^ 2) / ((x.C : ℕ) : ℝ) = _
    congr 1
    exact Finset.sum_congr rfl fun i _ => by rw [updT_data_pixel]
  rw [hfun]
  have hM := hasDerivAt_chMean_updT x n c h w hc (x.data n c h w)
  have hterm : ∀ i ∈ range x.C,
      HasDerivAt (fun t => ((if i = c then t else x.data n i h w) -
          chMeanAt (updT x n c h w t) n h w) ^ 2)
        (2 * (x.data n i h w - chMeanAt x n h w) *
          ((if i = c then (1 : ℝ) else 0) - 1 / x.C)) (x.data n c h w) := by
    intro i _
    have hXi : HasDerivAt (fun t => if i = c then t else x.data n i h w)
        (if i = c then (1 : ℝ) else 0) (x.data n c h w) := by
      by_cases hic : i = c
      · simp only [if_pos hic]
        exact hasDerivAt_id _
      · simp only [if_neg hic]
        exact hasDerivAt_const _ _
    have h2 := (hXi.sub hM).pow 2
    have hval : (if i = c then x.data n c h w else x.data n i h w) =
        x.data n i h w := by
      split
      · next hic => rw [hic]
      · rfl
    rw [hval, hMs] at h2
    convert h2 using 1
    push_cast
    ring
  have hdiv := (HasDerivAt.sum hterm).div_const (x.C : ℝ)
  have hdev : ∑ i ∈ range x.C, (x.data n i h w - chMeanAt x n h w) = 0 := by
    unfold chMeanAt
    exact sum_dev_eq_zero x.C hC0 _
  have hsplit : ∑ i ∈ range x.C,
      2 * (x.data n i h w - chMeanAt x n h w) *
        ((if i = c then (1 : ℝ) else 0) - 1 / x.C) =
      2 * (x.data n c h w - chMeanAt x n h w) := by
    have hper : ∀ i ∈ range x.C,
        2 * (x.data n i h w - chMeanAt x n h w) *
          ((if i = c then (1 : ℝ) else 0) - 1 / x.C) =
        (if i = c then 2 * (x.data n i h w - chMeanAt x n h w) else 0) -
          (2 / x.C) * (x.data n i h w - chMeanAt x n h w) := by
      intro i _
      by_cases hic : i = c
      · rw [if_pos hic, if_pos hic]
        ring
      · rw [if_neg hic, if_neg hic]
        ring
    rw [Finset.sum_congr rfl hper, Finset.sum_sub_distrib,
      Finset.sum_ite_eq' (range x.C) c
        (fun i => 2 * (x.data n i h w - chMeanAt x n h w)),
      if_pos (mem_range.mpr hc), ← Finset.mul_sum, hdev]
    ring
  rw [hsplit] at hdiv
  exact hdiv

lemma hasDerivAt_sqrtVar_updT (x : Tensor4) (n c h w : ℕ) (eps : ℝ)
    (hc : c < x.C) (heps : 0 < eps) :
    HasDerivAt
      (fun t => Real.sqrt (chVarAt (updT x n c h w t) n h w + eps))
      (1 / (2 * Real.sqrt (chVarAt x n h w + eps)) *
        (2 * (x.data n c h w - chMeanAt x n h w) / x.C))
      (x.data n c h w) := by
  have hvar := (hasDerivAt_chVar_updT x n c h w hc).add_const eps
  have hpos : 0 < chVarAt (updT x n c h w (x.data n c h w)) n h w + eps := by
    rw [updT_self]
    have := chMeanAt_nonneg_var x n h w
    linarith
  have hcomp := (Real.hasDerivAt_sqrt (ne_of_gt hpos)).comp
    (x.data n c h w) hvar
  rw [updT_self] at hcomp
  simpa [Function.comp] using hcomp

lemma hasDerivAt_outChannel (x : Tensor4) (n c h w i : ℕ) (wv bv : ℕ → ℝ)
    (eps : ℝ) (hc : c < x.C) (heps : 0 < eps) :
    HasDerivAt
      (fun t => wv i * (((updT x n c h w t).data n i h w -
          chMeanAt (updT x n c h w t) n h w) /
        Real.sqrt (chVarAt (updT x n c h w t) n h w + eps)) + bv i)
      (chanSlope x n c h w i wv eps) (x.data n c h w) := by
  have hXi : HasDerivAt (fun t => (updT x n c h w t).data n i h w)
      (if i = c then (1 : ℝ) else 0) (x.data n c h w) := by
    have hfun : (fun t => (updT x n c h w t).data n i h w) =
        fun t => if i = c then t else x.data n i h w :=
      funext fun t => updT_data_pixel x n c h w t i
    rw [hfun]
    by_cases hic : i = c
    · simp only [if_pos hic]
      exact hasDerivAt_id _
    · simp only [if_neg hic]
      exact hasDerivAt_const _ _
  have hM := hasDerivAt_chMean_updT x n c h w hc (x.data n c h w)
  have hs := hasDerivAt_sqrtVar_updT x n c h w eps hc heps
  have hpos : 0 < Real.sqrt (chVarAt x n h w + eps) := by
    apply Real.sqrt_pos.mpr
    have := chMeanAt_nonneg_var x n h w
    linarith
  have hs0 : Real.sqrt (chVarAt (updT x n c h w (x.data n c h w)) n h w +
      eps) ≠ 0 := by
    rw [updT_self]
    exact ne_of_gt hpos
  have hdiv := (hXi.sub hM).div hs hs0
  have hfinal := (hdiv.const_mul (wv i)).add_const (bv i)
  rw [updT_self] at hfinal
  exact hfinal

lemma chMeanAt_updT_other (x : Tensor4) (n c h w : ℕ) (t : ℝ)
    {n' h' w' : ℕ} (hne : ¬(n' = n ∧ h' = h ∧ w' = w)) :
    chMeanAt (updT x n c h w t) n' h' w' = chMeanAt x n' h' w' := by
  unfold chMeanAt
  congr 1
  exact Finset.sum_congr rfl fun i _ => updT_data_other x n c h w t hne i

lemma chVarAt_updT_other (x : Tensor4) (n c h w : ℕ) (t : ℝ)
    {n' h' w' : ℕ} (hne : ¬(n' = n ∧ h' = h ∧ w' = w)) :
    chVarAt (updT x n c h w t) n' h' w' = chVarAt x n' h' w' := by
  unfold chVarAt
  congr 1
  refine Finset.sum_congr rfl fun i _ => ?_
  rw [updT_data_other x n c h w t hne i, chMeanAt_updT_other x n c h w t hne]

lemma LN_fwd_updT_other (x : Tensor4) (n c h w : ℕ) (t : ℝ)
    (wv bv : ℕ → ℝ) (eps : ℝ) {n' c' h' w' : ℕ}
    (hne : ¬(n' = n ∧ h' = h ∧ w' = w)) (hn' : n' < x.B) (hc' : c' < x.C)
    (hh' : h' < x.H) (hw' : w' < x.W) :
    (LN.fwd (updT x n c h w t) wv bv eps).data n' c' h' w' =
      (LN.fwd x wv bv eps).data n' c' h' w' := by
  rw [LN_fwd_data (updT x n c h w t) wv bv eps n' c' h' w' hn' hc' hh' hw',
    LN_fwd_data x wv bv eps n' c' h' w' hn' hc' hh' hw',
    updT_data_other x n c h w t hne c', chMeanAt_updT_other x n c h w t hne,
    chVarAt_updT_other x n c h w t hne]

lemma sum4_ite_collapse (B C H W n h w : ℕ) (hn : n < B) (hh : h < H)
    (hw : w < W) (f : ℕ → ℕ → ℕ → ℕ → ℝ) :
    (∑ a ∈ range B, ∑ b ∈ range C, ∑ d ∈ range H, ∑ e ∈ range W,
      if a = n ∧ d = h ∧ e = w then f a b d e else 0) =
      ∑ b ∈ range C, f n b h w := by
  rw [Finset.sum_eq_single_of_mem n (mem_range.mpr hn)]
  · refine Finset.sum_congr rfl fun b _ => ?_
    rw [Finset.sum_eq_single_of_mem h (mem_range.mpr hh)]
    · rw [Finset.sum_eq_single_of_mem w (mem_range.mpr hw)]
      · simp
      · intro e _ hew
        simp [hew]
    · intro d _ hdh
      refine Finset.sum_eq_zero fun e _ => ?_
      simp [hdh]
  · intro a _ han
    refine Finset.sum_eq_zero fun b _ => ?_
    refine Finset.sum_eq_zero fun d _ => ?_
    refine Finset.sum_eq_zero fun e _ => ?_
    simp [han]

lemma hasDerivAt_pairing_x (x go : Tensor4) (wv bv : ℕ → ℝ) (eps : ℝ)
    (heps : 0 < eps) (n c h w : ℕ) (hn : n < x.B) (hc : c < x.C)
    (hh : h < x.H) (hw : w < x.W) :
    HasDerivAt (fun t => LNgradPairing go (updT x n c h w t) wv bv eps)
      (∑ i ∈ range x.C, go.data n i h w * chanSlope x n c h w i wv eps)
      (x.data n c h w) := by
  have hleaf : ∀ a ∈ range x.B, ∀ b ∈ range x.C, ∀ d ∈ range x.H,
      ∀ e ∈ range x.W,
      HasDerivAt (fun t => go.data a b d e *
          (LN.fwd (updT x n c h w t) wv bv eps).data a b d e)
        (if a = n ∧ d = h ∧ e = w then
          go.data a b d e * chanSlope x n c h w b wv eps else 0)
      (x.data n c h w) := by
    intro a ha b hb d hd e he
    rw [mem_range] at ha hb hd he
    by_cases hcond : a = n ∧ d = h ∧ e = w
    · obtain ⟨rfl, rfl, rfl⟩ := hcond
      rw [if_pos ⟨rfl, rfl, rfl⟩]
      have hfun : (fun t => go.data a b d e *
          (LN.fwd (updT x a c d e t) wv bv eps).data a b d e) =
          fun t => go.data a b d e *
            (wv b * (((updT x a c d e t).data a b d e -
                chMeanAt (updT x a c d e t) a d e) /
              Real.sqrt (chVarAt (updT x a c d e t) a d e + eps)) + bv b)
          := by
        funext t
        rw [LN_fwd_data (updT x a c d e t) wv bv eps a b d e ha hb hd he]
      rw [hfun]
      exact (hasDerivAt_outChannel x a c d e b wv bv eps hc heps).const_mul
        (go.data a b d e)
    · rw [if_neg hcond]
      have hfun : (fun t => go.data a b d e *
          (LN.fwd (updT x n c h w t) wv bv eps).data a b d e) =
          fun _ => go.data a b d e * (LN.fwd x wv bv eps).data a b d e := by
        funext t
        rw [LN_fwd_updT_other x n c h w t wv bv eps hcond ha hb hd he]
      rw [hfun]
      exact hasDerivAt_const _ _
  have hsum : HasDerivAt
      (fun t => ∑ a ∈ range x.B, ∑ b ∈ range x.C, ∑ d ∈ range x.H,
        ∑ e ∈ range x.W, go.data a b d e *
          (LN.fwd (updT x n c h w t) wv bv eps).data a b d e)
      (∑ a ∈ range x.B, ∑ b ∈ range x.C, ∑ d ∈ range x.H,
        ∑ e ∈ range x.W, if a = n ∧ d = h ∧ e = w then
          go.data a b d e * chanSlope x n c h w b wv eps else 0)
      (x.data n c h w) := by
    refine HasDerivAt.sum fun a ha => HasDerivAt.sum fun b hb =>
      HasDerivAt.sum fun d hd => HasDerivAt.sum fun e he => ?_
    exact hleaf a ha b hb d hd e he
  rw [sum4_ite_collapse x.B x.C x.H x.W n h w hn hh hw] at hsum
  exact hsum

lemma sum_chanSlope (x go : Tensor4) (wv : ℕ → ℝ) (eps : ℝ) (n c h w : ℕ)
    (hc : c < x.C) (heps : 0 < eps) :
    ∑ i ∈ range x.C, go.data n i h w * chanSlope x n c h w i wv eps =
      1 / Real.sqrt (chVarAt x n h w + eps) *
        (go.data n c h w * wv c -
          (x.data n c h w - chMeanAt x n h w) /
              Real.sqrt (chVarAt x n h w + eps) *
            ((∑ i ∈ range x.C, go.data n i h w * wv i *
              ((x.data n i h w - chMeanAt x n h w) /
                Real.sqrt (chVarAt x n h w + eps))) / x.C) -
          (∑ i ∈ range x.C, go.data n i h w * wv i) / x.C) := by
  have hspos : 0 < Real.sqrt (chVarAt x n h w + eps) := by
    apply Real.sqrt_pos.mpr
    have := chMeanAt_nonneg_var x n h w
    linarith
  set s := Real.sqrt (chVarAt x n h w + eps) with hsdef
  have hs0 : s ≠ 0 := ne_of_gt hspos
  have hC0R : (x.C : ℝ) ≠ 0 := Nat.cast_ne_zero.mpr (by omega)
  have hper : ∀ i ∈ range x.C,
      go.data n i h w * chanSlope x n c h w i wv eps =
      (if i = c then go.data n i h w * wv i / s else 0) -
        go.data n i h w * wv i / (x.C * s) -
        go.data n i h w * wv i *
          ((x.data n i h w - chMeanAt x n h w) *
            (x.data n c h w - chMeanAt x n h w)) / (x.C * s ^ 3) := by
    intro i _
    unfold chanSlope
    rw [← hsdef]
    by_cases hic : i = c
    · rw [if_pos hic, if_pos hic]
      field_simp
      ring
    · rw [if_neg hic, if_neg hic]
      field_simp
      ring
  rw [Finset.sum_congr rfl hper, Finset.sum_sub_distrib,
    Finset.sum_sub_distrib,
    Finset.sum_ite_eq' (range x.C) c
      (fun i => go.data n i h w * wv i / s),
    if_pos (mem_range.mpr hc), ← Finset.sum_div]
  have h3 : ∑ i ∈ range x.C, go.data n i h w * wv i *
      ((x.data n i h w - chMeanAt x n h w) *
        (x.data n c h w - chMeanAt x n h w)) / (x.C * s ^ 3) =
      (∑ i ∈ range x.C, go.data n i h w * wv i *
        ((x.data n i h w - chMeanAt x n h w) / s)) *
      ((x.data n c h w - chMeanAt x n h w) / (x.C * s ^ 2)) := by
    rw [Finset.sum_mul]
    refine Finset.sum_congr rfl fun i _ => ?_
    field_simp
    ring
  rw [h3]
  field_simp
  ring

lemma bcSub_data (x y : Tensor4) (b c h w : ℕ) :
    (Tensor4.bcSub x y).data b c h w =
      x.data (Tensor4.bidx x.B b) (Tensor4.bidx x.C c) (Tensor4.bidx x.H h)
        (Tensor4.bidx x.W w) -
      y.data (Tensor4.bidx y.B b) (Tensor4.bidx y.C c) (Tensor4.bidx y.H h)
        (Tensor4.bidx y.W w) := rfl

lemma LN_bwd_fst (go y var : Tensor4) (wv : ℕ → ℝ) (eps : ℝ) :
    (LN.bwd go y var wv eps).1 =
      Tensor4.bcMul (recipT (sqrtT (addScalarT var eps)))
        (Tensor4.bcSub
          (Tensor4.bcSub (Tensor4.bcMul go (viewC wv go.C))
            (Tensor4.bcMul y
              (mean1 (Tensor4.bcMul (Tensor4.bcMul go (viewC wv go.C)) y))))
          (mean1 (Tensor4.bcMul go (viewC wv go.C)))) := rfl

lemma LN_bwd_snd (go y var : Tensor4) (wv : ℕ → ℝ) (eps : ℝ) :
    (LN.bwd go y var wv eps).2.1 = sum320 (Tensor4.bcMul go y) := rfl

lemma LN_bwd_bias (go y var : Tensor4) (wv : ℕ → ℝ) (eps : ℝ) :
    (LN.bwd go y var wv eps).2.2 = sum320 go := rfl

lemma bcMul_go_view_data (go : Tensor4) (wv : ℕ → ℝ) {n i h w : ℕ}
    (hn : n < go.B) (hi : i < go.C) (hh : h < go.H) (hw : w < go.W) :
    (Tensor4.bcMul go (viewC wv go.C)).data n i h w =
      go.data n i h w * wv i := by
  rw [bcMul_data, viewC_data, Tensor4.bidx_eq_of_lt hn,
    Tensor4.bidx_eq_of_lt hi, Tensor4.bidx_eq_of_lt hh,
    Tensor4.bidx_eq_of_lt hw, viewC_C, Tensor4.bidx_eq_of_lt hi]

lemma LN_bwd_gx_data (x go : Tensor4) (wv : ℕ → ℝ) (eps : ℝ)
    (hB : go.B = x.B) (hCd : go.C = x.C) (hHd : go.H = x.H)
    (hWd : go.W = x.W) (n c h w : ℕ) (hn : n < x.B) (hc : c < x.C)
    (hh : h < x.H) (hw : w < x.W) :
    (LN.bwd go (LN.yhat x eps) (LN.var x) wv eps).1.data n c h w =
      1 / Real.sqrt (chVarAt x n h w + eps) *
        (go.data n c h w * wv c -
          (x.data n c h w - chMeanAt x n h w) /
              Real.sqrt (chVarAt x n h w + eps) *
            ((∑ i ∈ range x.C, go.data n i h w * wv i *
              ((x.data n i h w - chMeanAt x n h w) /
                Real.sqrt (chVarAt x n h w + eps))) / x.C) -
          (∑ i ∈ range x.C, go.data n i h w * wv i) / x.C) := by
  have hn' : n < go.B := by rw [hB]; exact hn
  have hc' : c < go.C := by rw [hCd]; exact hc
  have hh' : h < go.H := by rw [hHd]; exact hh
  have hw' : w < go.W := by rw [hWd]; exact hw
  rw [LN_bwd_fst]
  set G := Tensor4.bcMul go (viewC wv go.C) with hGdef
  set Y := LN.yhat x eps with hYdef
  set GY := Tensor4.bcMul G Y with hGYdef
  set MGY := mean1 GY with hMGYdef
  set MG := mean1 G with hMGdef
  set YM := Tensor4.bcMul Y MGY with hYMdef
  set S1 := Tensor4.bcSub G YM with hS1def
  set S := Tensor4.bcSub S1 MG with hSdef
  set A := recipT (sqrtT (addScalarT (LN.var x) eps)) with hAdef
  have hYB : Y.B = x.B := by rw [hYdef]; simp [LN.yhat, LN.var, LN.mu]
  have hYC : Y.C = x.C := by rw [hYdef]; simp [LN.yhat, LN.var, LN.mu]
  have hYH : Y.H = x.H := by rw [hYdef]; simp [LN.yhat, LN.var, LN.mu]
  have hYW : Y.W = x.W := by rw [hYdef]; simp [LN.yhat, LN.var, LN.mu]
  have hGB : G.B = go.B := by rw [hGdef]; simp
  have hGC : G.C = go.C := by rw [hGdef]; simp
  have hGH : G.H = go.H := by rw [hGdef]; simp
  have hGW : G.W = go.W := by rw [hGdef]; simp
  have hGYB : GY.B = x.B := by
    rw [hGYdef, Tensor4.bcMul_B, hGB, hB, hYB, Tensor4.bdim_self]
  have hGYC : GY.C = x.C := by
    rw [hGYdef, Tensor4.bcMul_C, hGC, hCd, hYC, Tensor4.bdim_self]
  have hGYH : GY.H = x.H := by
    rw [hGYdef, Tensor4.bcMul_H, hGH, hHd, hYH, Tensor4.bdim_self]
  have hGYW : GY.W = x.W := by
    rw [hGYdef, Tensor4.bcMul_W, hGW, hWd, hYW, Tensor4.bdim_self]
  have hMGYB : MGY.B = x.B := by rw [hMGYdef, mean1_B, hGYB]
  have hMGYC : MGY.C = 1 := by rw [hMGYdef, mean1_C]
  have hMGYH : MGY.H = x.H := by rw [hMGYdef, mean1_H, hGYH]
  have hMGYW : MGY.W = x.W := by rw [hMGYdef, mean1_W, hGYW]
  have hMGB : MG.B = go.B := by rw [hMGdef, mean1_B, hGB]
  have hMGC : MG.C = 1 := by rw [hMGdef, mean1_C]
  have hMGH : MG.H = go.H := by rw [hMGdef, mean1_H, hGH]
  have hMGW : MG.W = go.W := by rw [hMGdef, mean1_W, hGW]
  have hYMB : YM.B = x.B := by
    rw [hYMdef, Tensor4.bcMul_B, hYB, hMGYB, Tensor4.bdim_self]
  have hYMC : YM.C = x.C := by
    rw [hYMdef, Tensor4.bcMul_C, hYC, hMGYC, Tensor4.bdim_one_right]
  have hYMH : YM.H = x.H := by
    rw [hYMdef, Tensor4.bcMul_H, hYH, hMGYH, Tensor4.bdim_self]
  have hYMW : YM.W = x.W := by
    rw [hYMdef, Tensor4.bcMul_W, hYW, hMGYW, Tensor4.bdim_self]
  have hS1B : S1.B = x.B := by
    rw [hS1def, Tensor4.bcSub_B, hGB, hB, hYMB, Tensor4.bdim_self]
  have hS1C : S1.C = x.C := by
    rw [hS1def, Tensor4.bcSub_C, hGC, hCd, hYMC, Tensor4.bdim_self]
  have hS1H : S1.H = x.H := by
    rw [hS1def, Tensor4.bcSub_H, hGH, hHd, hYMH, Tensor4.bdim_self]
  have hS1W : S1.W = x.W := by
    rw [hS1def, Tensor4.bcSub_W, hGW, hWd, hYMW, Tensor4.bdim_self]
  have hSB : S.B = x.B := by
    rw [hSdef, Tensor4.bcSub_B, hS1B, hMGB, hB, Tensor4.bdim_self]
  have hSC : S.C = x.C := by
    rw [hSdef, Tensor4.bcSub_C, hS1C, hMGC, Tensor4.bdim_one_right]
  have hSH : S.H = x.H := by
    rw [hSdef, Tensor4.bcSub_H, hS1H, hMGH, hHd, Tensor4.bdim_self]
  have hSW : S.W = x.W := by
    rw [hSdef, Tensor4.bcSub_W, hS1W, hMGW, hWd, Tensor4.bdim_self]
  have hAB : A.B = x.B := by rw [hAdef]; simp [LN.var, LN.mu]
  have hAC : A.C = 1 := by rw [hAdef]; simp [LN.var, LN.mu]
  have hAH : A.H = x.H := by rw [hAdef]; simp [LN.var, LN.mu]
  have hAW : A.W = x.W := by rw [hAdef]; simp [LN.var, LN.mu]
  have hGdata : ∀ i, i < x.C → G.data n i h w = go.data n i h w * wv i := by
    intro i hi
    rw [hGdef]
    exact bcMul_go_view_data go wv hn' (by rw [hCd]; exact hi) hh' hw'
  have hYdata : ∀ i, i < x.C → Y.data n i h w =
      (x.data n i h w - chMeanAt x n h w) /
        Real.sqrt (chVarAt x n h w + eps) := by
    intro i hi
    rw [hYdef]
    exact LN_yhat_data x eps hn hi hh hw
  have hGYdata : ∀ i, i < x.C → GY.data n i h w =
      go.data n i h w * wv i * ((x.data n i h w - chMeanAt x n h w) /
        Real.sqrt (chVarAt x n h w + eps)) := by
    intro i hi
    rw [hGYdef, bcMul_data, hGB, hGC, hGH, hGW, hYB, hYC, hYH, hYW,
      Tensor4.bidx_eq_of_lt hn', Tensor4.bidx_eq_of_lt hn,
      Tensor4.bidx_eq_of_lt (show i < go.C by rw [hCd]; exact hi),
      Tensor4.bidx_eq_of_lt hi, Tensor4.bidx_eq_of_lt hh',
      Tensor4.bidx_eq_of_lt hh, Tensor4.bidx_eq_of_lt hw',
      Tensor4.bidx_eq_of_lt hw, hGdata i hi, hYdata i hi]
  have hMGYdata : MGY.data n 0 h w =
      (∑ i ∈ range x.C, go.data n i h w * wv i *
        ((x.data n i h w - chMeanAt x n h w) /
          Real.sqrt (chVarAt x n h w + eps))) / x.C := by
    rw [hMGYdef]
    show (∑ i ∈ range GY.C, GY.data n i h w) / ((GY.C : ℕ) : ℝ) = _
    rw [hGYC]
    congr 1
    exact Finset.sum_congr rfl fun i hi => hGYdata i (mem_range.mp hi)
  have hMGdata : MG.data n 0 h w =
      (∑ i ∈ range x.C, go.data n i h w * wv i) / x.C := by
    rw [hMGdef]
    show (∑ i ∈ range G.C, G.data n i h w) / ((G.C : ℕ) : ℝ) = _
    rw [hGC, hCd]
    congr 1
    exact Finset.sum_congr rfl fun i hi => hGdata i (mem_range.mp hi)
  have hYMdata : YM.data n c h w =
      (x.data n c h w - chMeanAt x n h w) /
          Real.sqrt (chVarAt x n h w + eps) *
        ((∑ i ∈ range x.C, go.data n i h w * wv i *
          ((x.data n i h w - chMeanAt x n h w) /
            Real.sqrt (chVarAt x n h w + eps))) / x.C) := by
    rw [hYMdef, bcMul_data, hYB, hYC, hYH, hYW, hMGYB, hMGYC, hMGYH, hMGYW,
      Tensor4.bidx_eq_of_lt hn, Tensor4.bidx_eq_of_lt hc,
      Tensor4.bidx_eq_of_lt hh, Tensor4.bidx_eq_of_lt hw, Tensor4.bidx_one,
      hYdata c hc, hMGYdata]
  have hS1data : S1.data n c h w =
      go.data n c h w * wv c -
        (x.data n c h w - chMeanAt x n h w) /
            Real.sqrt (chVarAt x n h w + eps) *
          ((∑ i ∈ range x.C, go.data n i h w * wv i *
            ((x.data n i h w - chMeanAt x n h w) /
              Real.sqrt (chVarAt x n h w + eps))) / x.C) := by
    rw [hS1def, bcSub_data, hGB, hGC, hGH, hGW, hYMB, hYMC, hYMH, hYMW,
      Tensor4.bidx_eq_of_lt hn', Tensor4.bidx_eq_of_lt hn,
      Tensor4.bidx_eq_of_lt hc', Tensor4.bidx_eq_of_lt hc,
      Tensor4.bidx_eq_of_lt hh', Tensor4.bidx_eq_of_lt hh,
      Tensor4.bidx_eq_of_lt hw', Tensor4.bidx_eq_of_lt hw,
      hGdata c hc, hYMdata]
  have hSdata : S.data n c h w =
      go.data n c h w * wv c -
        (x.data n c h w - chMeanAt x n h w) /
            Real.sqrt (chVarAt x n h w + eps) *
          ((∑ i ∈ range x.C, go.data n i h w * wv i *
            ((x.data n i h w - chMeanAt x n h w) /
              Real.sqrt (chVarAt x n h w + eps))) / x.C) -
        (∑ i ∈ range x.C, go.data n i h w * wv i) / x.C := by
    rw [hSdef, bcSub_data, hS1B, hS1C, hS1H, hS1W, hMGB, hMGC, hMGH, hMGW,
      Tensor4.bidx_eq_of_lt hn, Tensor4.bidx_eq_of_lt hn',
      Tensor4.bidx_eq_of_lt hc, Tensor4.bidx_one,
      Tensor4.bidx_eq_of_lt hh, Tensor4.bidx_eq_of_lt hh',
      Tensor4.bidx_eq_of_lt hw, Tensor4.bidx_eq_of_lt hw',
      hS1data, hMGdata]
  have hAdata : A.data n 0 h w = 1 / Real.sqrt (chVarAt x n h w + eps) := by
    rw [hAdef]
    show 1 / Real.sqrt ((LN.var x).data n 0 h w + eps) = _
    rw [LN_var_data x 0 hn hh hw]
  rw [bcMul_data, hAB, hAC, hAH, hAW, hSB, hSC, hSH, hSW,
    Tensor4.bidx_eq_of_lt hn, Tensor4.bidx_eq_of_lt hc, Tensor4.bidx_one,
    Tensor4.bidx_eq_of_lt hh, Tensor4.bidx_eq_of_lt hw, hAdata, hSdata]

lemma sum4_ite_collapse_c (B C H W c : ℕ) (hc : c < C)
    (f : ℕ → ℕ → ℕ → ℕ → ℝ) :
    (∑ a ∈ range B, ∑ b ∈ range C, ∑ d ∈ range H, ∑ e ∈ range W,
      if b = c then f a b d e else 0) =
      ∑ a ∈ range B, ∑ d ∈ range H, ∑ e ∈ range W, f a c d e := by
  refine Finset.sum_congr rfl fun a _ => ?_
  rw [Finset.sum_eq_single_of_mem c (mem_range.mpr hc)]
  · simp
  · intro b _ hbc
    refine Finset.sum_eq_zero fun d _ => ?_
    refine Finset.sum_eq_zero fun e _ => ?_
    simp [hbc]

lemma LN_bwd_gw_data (x go : Tensor4) (wv : ℕ → ℝ) (eps : ℝ)
    (hB : go.B = x.B) (hCd : go.C = x.C) (hHd : go.H = x.H)
    (hWd : go.W = x.W) (c : ℕ) (hc : c < x.C) :
    (LN.bwd go (LN.yhat x eps) (LN.var x) wv eps).2.1 c =
      ∑ a ∈ range x.B, ∑ d ∈ range x.H, ∑ e ∈ range x.W,
        go.data a c d e * ((x.data a c d e - chMeanAt x a d e) /
          Real.sqrt (chVarAt x a d e + eps)) := by
  rw [LN_bwd_snd]
  have hYB : (LN.yhat x eps).B = x.B := by simp [LN.yhat, LN.var, LN.mu]
  have hYC : (LN.yhat x eps).C = x.C := by simp [LN.yhat, LN.var, LN.mu]
  have hYH : (LN.yhat x eps).H = x.H := by simp [LN.yhat, LN.var, LN.mu]
  have hYW : (LN.yhat x eps).W = x.W := by simp [LN.yhat, LN.var, LN.mu]
  have htB : (Tensor4.bcMul go (LN.yhat x eps)).B = x.B := by
    rw [Tensor4.bcMul_B, hB, hYB, Tensor4.bdim_self]
  have htH : (Tensor4.bcMul go (LN.yhat x eps)).H = x.H := by
    rw [Tensor4.bcMul_H, hHd, hYH, Tensor4.bdim_self]
  have htW : (Tensor4.bcMul go (LN.yhat x eps)).W = x.W := by
    rw [Tensor4.bcMul_W, hWd, hYW, Tensor4.bdim_self]
  unfold sum320
  rw [htB, htH, htW]
  refine Finset.sum_congr rfl fun a ha => ?_
  refine Finset.sum_congr rfl fun d hd => ?_
  refine Finset.sum_congr rfl fun e he => ?_
  rw [mem_range] at ha hd he
  rw [bcMul_data, hYB, hYC, hYH, hYW,
    Tensor4.bidx_eq_of_lt (show a < go.B by rw [hB]; exact ha),
    Tensor4.bidx_eq_of_lt ha,
    Tensor4.bidx_eq_of_lt (show c < go.C by rw [hCd]; exact hc),
    Tensor4.bidx_eq_of_lt hc,
    Tensor4.bidx_eq_of_lt (show d < go.H by rw [hHd]; exact hd),
    Tensor4.bidx_eq_of_lt hd,
    Tensor4.bidx_eq_of_lt (show e < go.W by rw [hWd]; exact he),
    Tensor4.bidx_eq_of_lt he,
    LN_yhat_data x eps ha hc hd he]

lemma LN_bwd_gb_data (x go : Tensor4) (wv : ℕ → ℝ) (eps : ℝ)
    (hB : go.B = x.B) (hHd : go.H = x.H) (hWd : go.W = x.W) (c : ℕ) :
    (LN.bwd go (LN.yhat x eps) (LN.var x) wv eps).2.2 c =
      ∑ a ∈ range x.B, ∑ d ∈ range x.H, ∑ e ∈ range x.W,
        go.data a c d e := by
  rw [LN_bwd_bias]
  unfold sum320
  rw [hB, hHd, hWd]

lemma hasDerivAt_pairing_w (x go : Tensor4) (wv bv : ℕ → ℝ) (eps : ℝ)
    (c : ℕ) (hc : c < x.C) :
    HasDerivAt (fun t => LNgradPairing go x (updV wv c t) bv eps)
      (∑ a ∈ range x.B, ∑ d ∈ range x.H, ∑ e ∈ range x.W,
        go.data a c d e * ((x.data a c d e - chMeanAt x a d e) /
          Real.sqrt (chVarAt x a d e + eps)))
      (wv c) := by
  have hleaf : ∀ a ∈ range x.B, ∀ b ∈ range x.C, ∀ d ∈ range x.H,
      ∀ e ∈ range x.W,
      HasDerivAt (fun t => go.data a b d e *
          (LN.fwd x (updV wv c t) bv eps).data a b d e)
        (if b = c then go.data a b d e *
          ((x.data a b d e - chMeanAt x a d e) /
            Real.sqrt (chVarAt x a d e + eps)) else 0)
      (wv c) := by
    intro a ha b hb d hd e he
    rw [mem_range] at ha hb hd he
    have hfun : (fun t => go.data a b d e *
        (LN.fwd x (updV wv c t) bv eps).data a b d e) =
        fun t => go.data a b d e * ((if b = c then t else wv b) *
          ((x.data a b d e - chMeanAt x a d e) /
            Real.sqrt (chVarAt x a d e + eps)) + bv b) := by
      funext t
      rw [LN_fwd_data x (updV wv c t) bv eps a b d e ha hb hd he]
      rfl
    rw [hfun]
    by_cases hbc : b = c
    · simp only [if_pos hbc]
      have := (((hasDerivAt_id (wv c)).mul_const
        ((x.data a b d e - chMeanAt x a d e) /
          Real.sqrt (chVarAt x a d e + eps))).add_const
        (bv b)).const_mul (go.data a b d e)
      simpa using this
    · simp only [if_neg hbc]
      exact hasDerivAt_const _ _
  have hsum : HasDerivAt
      (fun t => ∑ a ∈ range x.B, ∑ b ∈ range x.C, ∑ d ∈ range x.H,
        ∑ e ∈ range x.W, go.data a b d e *
          (LN.fwd x (updV wv c t) bv eps).data a b d e)
      (∑ a ∈ range x.B, ∑ b ∈ range x.C, ∑ d ∈ range x.H,
        ∑ e ∈ range x.W, if b = c then go.data a b d e *
          ((x.data a b d e - chMeanAt x a d e) /
            Real.sqrt (chVarAt x a d e + eps)) else 0)
      (wv c) := by
    refine HasDerivAt.sum fun a ha => HasDerivAt.sum fun b hb =>
      HasDerivAt.sum fun d hd => HasDerivAt.sum fun e he => ?_
    exact hleaf a ha b hb d hd e he
  rw [sum4_ite_collapse_c x.B x.C x.H x.W c hc] at hsum
  exact hsum

lemma hasDerivAt_pairing_bias (x go : Tensor4) (wv bv : ℕ → ℝ) (eps : ℝ)
    (c : ℕ) (hc : c < x.C) :
    HasDerivAt (fun t => LNgradPairing go x wv (updV bv c t) eps)
      (∑ a ∈ range x.B, ∑ d ∈ range x.H, ∑ e ∈ range x.W, go.data a c d e)
      (bv c) := by
  have hleaf : ∀ a ∈ range x.B, ∀ b ∈ range x.C, ∀ d ∈ range x.H,
      ∀ e ∈ range x.W,
      HasDerivAt (fun t => go.data a b d e *
          (LN.fwd x wv (updV bv c t) eps).data a b d e)
        (if b = c then go.data a b d e else 0)
      (bv c) := by
    intro a ha b hb d hd e he
    rw [mem_range] at ha hb hd he
    have hfun : (fun t => go.data a b d e *
        (LN.fwd x wv (updV bv c t) eps).data a b d e) =
        fun t => go.data a b d e * (wv b *
          ((x.data a b d e - chMeanAt x a d e) /
            Real.sqrt (chVarAt x a d e + eps)) +
          (if b = c then t else bv b)) := by
      funext t
      rw [LN_fwd_data x wv (updV bv c t) eps a b d e ha hb hd he]
      rfl
    rw [hfun]
    by_cases hbc : b = c
    · simp only [if_pos hbc]
      have := ((hasDerivAt_id (bv c)).const_add
        (wv b * ((x.data a b d e - chMeanAt x a d e) /
          Real.sqrt (chVarAt x a d e + eps)))).const_mul
        (go.data a b d e)
      simpa using this
    · simp only [if_neg hbc]
      exact hasDerivAt_const _ _
  have hsum : HasDerivAt
      (fun t => ∑ a ∈ range x.B, ∑ b ∈ range x.C, ∑ d ∈ range x.H,
        ∑ e ∈ range x.W, go.data a b d e *
          (LN.fwd x wv (updV bv c t) eps).data a b d e)
      (∑ a ∈ range x.B, ∑ b ∈ range x.C, ∑ d ∈ range x.H,
        ∑ e ∈ range x.W, if b = c then go.data a b d e else 0)
      (bv c) := by
    refine HasDerivAt.sum fun a ha => HasDerivAt.sum fun b hb =>
      HasDerivAt.sum fun d hd => HasDerivAt.sum fun e he => ?_
    exact hleaf a ha b hb d hd e he
  rw [sum4_ite_collapse_c x.B x.C x.H x.W c hc] at hsum
  exact hsum

/-- C4: `LayerNormFunction.backward` implements the analytic gradient of
the forward map.  For every input `x`, upstream gradient of the same shape,
weight/bias vectors and `eps > 0`, with the saved state `(y, var, weight)`
produced by the forward pass, the three returned gradients — the input
gradient `1/sqrt(var+eps) * (g - y*mean_C(g*y) - mean_C(g))` with
`g = grad_output * weight`, the weight gradient `(grad_output * y)`
summed over N, H, W, and the bias gradient `grad_output` summed over
N, H, W — equal the true partial derivatives (with respect to the input
entry at (n,c,h,w), `weight[c]` and `bias[c]` respectively) of the pairing
of the forward output with the upstream gradient. -/
theorem layerNorm_backward_is_gradient (x go : Tensor4) (wv bv : ℕ → ℝ)
    (eps : ℝ) (heps : 0 < eps) (hB : go.B = x.B) (hCd : go.C = x.C)
    (hHd : go.H = x.H) (hWd : go.W = x.W) (n c h w : ℕ) (hn : n < x.B)
    (hc : c < x.C) (hh : h < x.H) (hw : w < x.W) :
    (LN.bwd go (LN.yhat x eps) (LN.var x) wv eps).1.data n c h w =
      deriv (fun t => LNgradPairing go (updT x n c h w t) wv bv eps)
        (x.data n c h w) ∧
    (LN.bwd go (LN.yhat x eps) (LN.var x) wv eps).2.1 c =
      deriv (fun t => LNgradPairing go x (updV wv c t) bv eps) (wv c) ∧
    (LN.bwd go (LN.yhat x eps) (LN.var x) wv eps).2.2 c =
      deriv (fun t => LNgradPairing go x wv (updV bv c t) eps) (bv c) := by
  refine ⟨?_, ?_, ?_⟩
  · rw [(hasDerivAt_pairing_x x go wv bv eps heps n c h w hn hc hh hw).deriv,
      LN_bwd_gx_data x go wv eps hB hCd hHd hWd n c h w hn hc hh hw]
    exact (sum_chanSlope x go wv eps n c h w hc heps).symm
  · rw [(hasDerivAt_pairing_w x go wv bv eps c hc).deriv,
      LN_bwd_gw_data x go wv eps hB hCd hHd hWd c hc]
  · rw [(hasDerivAt_pairing_bias x go wv bv eps c hc).deriv,
      LN_bwd_gb_data x go wv eps hB hHd hWd c]

/-- Witness for C4 at a concrete input: the backward pass of the 1×4×3×3
sample tensor (paired against itself as upstream gradient, with weight
`c+1`, bias `c`, `eps = 1`) matches the true derivatives at coordinate
(0, 1, 0, 2). -/
theorem layerNorm_backward_is_gradient_witness :
    (LN.bwd t4x3 (LN.yhat t4x3 1) (LN.var t4x3)
        (fun i => (i : ℝ) + 1) 1).1.data 0 1 0 2 =
      deriv (fun t => LNgradPairing t4x3 (updT t4x3 0 1 0 2 t)
        (fun i => (i : ℝ) + 1) (fun i => (i : ℝ)) 1) (t4x3.data 0 1 0 2) ∧
    (LN.bwd t4x3 (LN.yhat t4x3 1) (LN.var t4x3)
        (fun i => (i : ℝ) + 1) 1).2.1 1 =
      deriv (fun t => LNgradPairing t4x3 t4x3 (updV (fun i => (i : ℝ) + 1)
        1 t) (fun i => (i : ℝ)) 1) (((1 : ℕ) : ℝ) + 1) ∧
    (LN.bwd t4x3 (LN.yhat t4x3 1) (LN.var t4x3)
        (fun i => (i : ℝ) + 1) 1).2.2 1 =
      deriv (fun t => LNgradPairing t4x3 t4x3 (fun i => (i : ℝ) + 1)
        (updV (fun i => (i : ℝ)) 1 t) 1) ((1 : ℕ) : ℝ) := by
  exact layerNorm_backward_is_gradient t4x3 t4x3 (fun i => (i : ℝ) + 1)
    (fun i => (i : ℝ)) 1 (by norm_num) rfl rfl rfl rfl 0 1 0 2 (by decide)
    (by decide) (by decide) (by decide)

/-- Witness for C9 at concrete inputs: the all-zero-parameter blocks (whose
`beta` and `gamma` are the zero vectors, as at initialization) map the
1×1×1×1 sample tensor to itself. -/
theorem blocks_identity_at_init_witness :
    Tensor4.Eqv ((mkCGBlock 1 2 zeroCGRaw).fwd t1x1) t1x1 ∧
    Tensor4.Eqv ((mkNAF 1 zeroNAFRaw).fwd t1x1) t1x1 :=
  ⟨blocks_identity_at_init.1 1 2 zeroCGRaw t1x1 rfl rfl rfl (by decide)
      (by decide),
    blocks_identity_at_init.2 1 zeroNAFRaw t1x1 rfl rfl rfl (by decide)
      (by decide)⟩

/-- Witness for C3 at a concrete input: the LayerNorm output of the
1×4×3×3 sample tensor at index (0, 1, 0, 2), with weight `c+1`, bias `c`
and `eps = 1`, equals the claimed formula. -/
theorem layerNorm_forward_formula_witness :
    (LN.fwd t4x3 (fun c => (c : ℝ) + 1) (fun c => (c : ℝ)) 1).data 0 1 0 2 =
      ((1 : ℝ) + 1) * ((t4x3.data 0 1 0 2 - chMeanAt t4x3 0 0 2) /
        Real.sqrt (chVarAt t4x3 0 0 2 + 1)) + 1 := by
  have h := layerNorm_forward_formula t4x3 (fun c => (c : ℝ) + 1)
    (fun c => (c : ℝ)) 1 0 1 0 2 (by decide) (by decide) (by decide)
    (by decide)
  rw [h]
  norm_num

